import Mathlib

/-!
Verification of the DroneDrillers grid-world engine.

This file gives a shallow embedding of the core simulation code
(src/utils/icon.py, counter.py, coordinate.py, tile.py, map_data.py,
map.py, src/units/ally/atron.py, overlord.py) and proves or refutes the
frozen specification claims about it.

Python conventions captured by the embedding:
  - exceptions are modelled with an explicit error type `Err`; a Python
    error message is encoded as an `ErrMsg` constructor;
  - Python list indexing wraps negative indices and raises IndexError
    when out of range (`pyIndex`);
  - a Python dict is modelled as a function to `Option`;
  - tkinter variable objects (BooleanVar) have no truthiness override,
    so `not var` is always False (`BoolVar.truthy`).
-/

namespace DroneDrillers

/-- Error messages carried by ValueError / RuntimeError in the source. -/
inductive ErrMsg where
  | landingZoneOccupied
  | contextNotSet
  | valueNegative
  | maxBelowValue
  | undiscoveredOccupy
  | undiscoveredUnoccupy
  deriving DecidableEq, Repr

/-- Python exceptions raised by the embedded code.  `fuelOut` is an
artifact of embedding unbounded loops with fuel; the theorems below show
it does not occur on the inputs they speak about. -/
inductive Err where
  | keyError
  | indexError
  | valueError (kind : ErrMsg)
  | runtimeError (kind : ErrMsg)
  | fuelOut
  deriving DecidableEq, Repr

/-- Icon enumeration from src/utils/icon.py. -/
inductive Icon where
  | ATRON
  | SCOUT
  | MINER
  | PLAYER
  | WALL
  | DEPLOY_ZONE
  | MINERAL
  | ACID
  | EMPTY
  | UNKNOWN
  deriving DecidableEq, Repr

/-- Icon.traversable: `self in [Icon.DEPLOY_ZONE, Icon.ACID, Icon.EMPTY]`. -/
def Icon.traversable : Icon → Bool
  | .DEPLOY_ZONE => true
  | .ACID => true
  | .EMPTY => true
  | _ => false

/-- Icon.health_cost: Wall is -1, Acid is -3, everything else 0. -/
def Icon.health_cost : Icon → Int
  | .WALL => -1
  | .ACID => -3
  | _ => 0

/-- Modelled from the spec: src/utils/directions.py is imported throughout
the repository but absent from src/.  The spec (section 4.1) names the five
directions NORTH, SOUTH, EAST, WEST and CENTER. -/
inductive Directions where
  | NORTH
  | SOUTH
  | EAST
  | WEST
  | CENTER
  deriving DecidableEq, Repr

/-- Coordinate from src/utils/coordinate.py: an integer (x, y) pair. -/
structure Coordinate where
  x : Int
  y : Int
  deriving DecidableEq, Repr

/-- Coordinate.translate_one: move one step in the given direction;
CENTER copies the coordinate. -/
def Coordinate.translate_one (c : Coordinate) : Directions → Coordinate
  | .NORTH => { c with y := c.y - 1 }
  | .SOUTH => { c with y := c.y + 1 }
  | .EAST => { c with x := c.x + 1 }
  | .WEST => { c with x := c.x - 1 }
  | .CENTER => ⟨c.x, c.y⟩

/-- Coordinate.cardinals: the four neighbors in the fixed order
North, South, East, West. -/
def Coordinate.cardinals (c : Coordinate) : List Coordinate :=
  [c.translate_one .NORTH, c.translate_one .SOUTH,
   c.translate_one .EAST, c.translate_one .WEST]

/-- Manhattan distance, stated from the spec wording of claim C7 for
comparison with the path search of the source. -/
def manhattan (a b : Coordinate) : Nat :=
  (b.x - a.x).natAbs + (b.y - a.y).natAbs

/-! ## Counter (src/utils/counter.py) -/

/-- DEFAULT_VALUE sentinel marking an unbounded counter. -/
def DEFAULT_VALUE : Int := -1

/-- Counter state: current value, constructor-time start value and the
maximum (DEFAULT_VALUE when unbounded). -/
structure Counter where
  value : Int
  start : Int
  max_value : Int
  deriving DecidableEq, Repr

/-- Counter.__init__: rejects a negative start value and a maximum below
the start value; a missing value defaults to 0 and a missing maximum to
the DEFAULT_VALUE sentinel. -/
def Counter.init (value : Option Int) (max_value : Option Int) :
    Except Err Counter :=
  match value with
  | some v =>
    if v < 0 then .error (.valueError .valueNegative)
    else
      match max_value with
      | some mx =>
        if mx < v then .error (.valueError .maxBelowValue)
        else .ok ⟨v, v, mx⟩
      | none => .ok ⟨v, v, DEFAULT_VALUE⟩
  | none =>
    match max_value with
    | some mx =>
      if mx < 0 then .error (.valueError .maxBelowValue)
      else .ok ⟨0, 0, mx⟩
    | none => .ok ⟨0, 0, DEFAULT_VALUE⟩

/-- Counter.get. -/
def Counter.get (c : Counter) : Int := c.value

/-- Counter.set: clamp below at 0 and, when bounded, above at the maximum. -/
def Counter.set (c : Counter) (v : Int) : Counter :=
  if v < 0 then { c with value := 0 }
  else if c.max_value ≠ DEFAULT_VALUE ∧ v > c.max_value then
    { c with value := c.max_value }
  else { c with value := v }

/-- Counter.count: add then clamp via set. -/
def Counter.count (c : Counter) (v : Int) : Counter :=
  c.set (c.get + v)

/-- Counter.reset: set back to the constructor-time start value. -/
def Counter.reset (c : Counter) : Counter :=
  c.set c.start

/-- One mutation of a counter, for stating the all-sequences invariant. -/
inductive CounterOp where
  | set (v : Int)
  | count (v : Int)
  deriving DecidableEq, Repr

/-- Apply one mutation. -/
def Counter.applyOp (c : Counter) : CounterOp → Counter
  | .set v => c.set v
  | .count v => c.count v

/-- Apply a finite sequence of set and count calls. -/
def Counter.applyOps (c : Counter) (ops : List CounterOp) : Counter :=
  ops.foldl Counter.applyOp c

/-! ## Python list and dict primitives -/

/-- Python list index resolution: a negative index is first shifted by the
list length; a resolved index outside the range raises IndexError (`none`). -/
def pyIndex (len : Nat) (i : Int) : Option Nat :=
  let j : Int := if i < 0 then i + len else i
  if 0 ≤ j ∧ j < (len : Int) then some j.toNat else none

/-- Python `l[i]` on a list. -/
def listIndex (l : List α) (i : Int) : Except Err α :=
  match pyIndex l.length i with
  | some n =>
    if h : n < l.length then .ok (l.get ⟨n, h⟩) else .error .indexError
  | none => .error .indexError

/-- Python `l[i] = a` on a list. -/
def listUpdate (l : List α) (i : Int) (a : α) : Except Err (List α) :=
  match pyIndex l.length i with
  | some n => .ok (l.set n a)
  | none => .error .indexError

/-- A Python dict keyed by coordinates, modelled extensionally. -/
def Dict (β : Type) := Coordinate → Option β

/-- Python `d[k]`: raises KeyError when the key is absent. -/
def Dict.getKey (d : Dict β) (k : Coordinate) : Except Err β :=
  match d k with
  | some v => .ok v
  | none => .error .keyError

/-- Python `d[k] = v`. -/
def Dict.setKey (d : Dict β) (k : Coordinate) (v : β) : Dict β :=
  fun k' => if k' = k then some v else d k'

/-- Python `del d[k]` (the call sites below establish presence first). -/
def Dict.delKey (d : Dict β) (k : Coordinate) : Dict β :=
  fun k' => if k' = k then none else d k'

/-! ## Context and actors (src/utils/context.py, src/units/ally/atron.py) -/

/-- Context: the coordinate of an actor plus the four neighbor icons. -/
structure Context where
  coord : Coordinate
  north : Icon
  south : Icon
  east : Icon
  west : Icon
  deriving DecidableEq, Repr

/-- Atron state: health and payload counters, an optional context and the
actor icon.  The context is `none` exactly when the actor is undeployed. -/
structure Atron where
  health : Counter
  payload : Counter
  context : Option Context
  icon : Icon
  deriving DecidableEq, Repr

/-- Atron.deployed: `self._context != None`. -/
def Atron.deployed (a : Atron) : Bool := a.context ≠ none

/-- The Atron.context property getter: raises ValueError when unset. -/
def Atron.context_get (a : Atron) : Except Err Context :=
  match a.context with
  | some c => .ok c
  | none => .error (.valueError .contextNotSet)

/-- Atron.undeploy composed with Atron.extract_minerals: clears the
context, resets the payload counter and returns the extracted payload;
an undeployed atron returns 0 unchanged. -/
def Atron.undeploy (a : Atron) : Atron × Int :=
  if a.deployed then
    ({ a with context := none, payload := a.payload.reset }, a.payload.get)
  else (a, 0)

/-! ## MapData grid state (src/utils/map_data.py) -/

/-- One tile as used by map_data.py: its grid coordinate, the icon shown on
it and the discovered flag. -/
structure TileM where
  coordinate : Coordinate
  icon : Icon
  discovered : Bool
  deriving DecidableEq, Repr

/-- MapData state: landing zone, the tile grid, the mineral ledger and the
acid coordinate list. -/
structure MapData where
  landing_zone : Coordinate
  all_tiles : List (List TileM)
  total_minerals : Dict Int
  acid : List Coordinate

/-- MapData.__getitem__: `self._all_tiles[key.y][key.x]` with Python list
index semantics (negative wrap, IndexError when out of range). -/
def MapData.getItem (m : MapData) (key : Coordinate) : Except Err TileM :=
  match listIndex m.all_tiles key.y with
  | .ok row => listIndex row key.x
  | .error e => .error e

/-- MapData.get: returns the default only when lookup raises KeyError;
the IndexError raised by list indexing is not caught and propagates. -/
def MapData.get (m : MapData) (key : Coordinate) (default : Option TileM) :
    Except Err (Option TileM) :=
  match m.getItem key with
  | .ok t => .ok (some t)
  | .error .keyError => .ok default
  | .error e => .error e

/-- MapData.__setitem__ / direct assignment to a tile icon attribute. -/
def MapData.setIcon (m : MapData) (coord : Coordinate) (icon : Icon) :
    Except Err MapData :=
  match listIndex m.all_tiles coord.y with
  | .error e => .error e
  | .ok row =>
    match listIndex row coord.x with
    | .error e => .error e
    | .ok t =>
      match listUpdate row coord.x { t with icon := icon } with
      | .error e => .error e
      | .ok row' =>
        match listUpdate m.all_tiles coord.y row' with
        | .error e => .error e
        | .ok tiles' => .ok { m with all_tiles := tiles' }

/-- Assignment to a tile discovered flag, used by reveal_tile. -/
def MapData.setDiscovered (m : MapData) (coord : Coordinate) (b : Bool) :
    Except Err MapData :=
  match listIndex m.all_tiles coord.y with
  | .error e => .error e
  | .ok row =>
    match listIndex row coord.x with
    | .error e => .error e
    | .ok t =>
      match listUpdate row coord.x { t with discovered := b } with
      | .error e => .error e
      | .ok row' =>
        match listUpdate m.all_tiles coord.y row' with
        | .error e => .error e
        | .ok tiles' => .ok { m with all_tiles := tiles' }

/-- MapData.reveal_tile: fetch with a None default and set discovered when
the tile exists and was not discovered yet. -/
def MapData.reveal_tile (m : MapData) (coord : Coordinate) :
    Except Err MapData :=
  match m.get coord none with
  | .error e => .error e
  | .ok none => .ok m
  | .ok (some t) =>
    if t.discovered then .ok m else m.setDiscovered coord true

/-- MapData.build_context: the icons of the four cardinal neighbors, in
the order North, South, East, West. -/
def MapData.build_context (m : MapData) (location : Coordinate) :
    Except Err Context :=
  match m.getItem (location.translate_one .NORTH) with
  | .error e => .error e
  | .ok tn =>
    match m.getItem (location.translate_one .SOUTH) with
    | .error e => .error e
    | .ok ts =>
      match m.getItem (location.translate_one .EAST) with
      | .error e => .error e
      | .ok te =>
        match m.getItem (location.translate_one .WEST) with
        | .error e => .error e
        | .ok tw => .ok ⟨location, tn.icon, ts.icon, te.icon, tw.icon⟩

/-- MapData._clear_tile: restore the landing zone, acid or empty icon. -/
def MapData.clear_tile (m : MapData) (pos : Coordinate) :
    Except Err MapData :=
  if pos = m.landing_zone then m.setIcon pos .DEPLOY_ZONE
  else if pos ∈ m.acid then m.setIcon pos .ACID
  else m.setIcon pos .EMPTY

/-- Reveal a list of coordinates in order (the cardinal reveal loops). -/
def MapData.reveal_list (m : MapData) : List Coordinate → Except Err MapData
  | [] => .ok m
  | c :: rest =>
    match m.reveal_tile c with
    | .error e => .error e
    | .ok m' => m'.reveal_list rest

/-- MapData.move_to: five-way dispatch on the icon of the target tile.
An occupant icon blocks; a traversable icon relocates the atron and
reveals the surroundings; a wall applies `count(-WALL.health_cost())`
to the health counter; a mineral decrements the ledger and increments
the payload, clearing the deposit when it reaches zero; any other icon
falls through the match and nothing happens. -/
def MapData.move_to (m : MapData) (atron : Atron)
    (new_location : Coordinate) : Except Err (MapData × Atron) :=
  match m.getItem new_location with
  | .error e => .error e
  | .ok t =>
    match t.icon with
    | .PLAYER | .MINER | .SCOUT => .ok (m, atron)
    | .DEPLOY_ZONE | .ACID | .EMPTY =>
      match atron.context_get with
      | .error e => .error e
      | .ok ctx =>
        match m.clear_tile ctx.coord with
        | .error e => .error e
        | .ok m1 =>
          match m1.setIcon new_location atron.icon with
          | .error e => .error e
          | .ok m2 =>
            match m2.build_context new_location with
            | .error e => .error e
            | .ok newCtx =>
              match m2.reveal_tile new_location with
              | .error e => .error e
              | .ok m3 =>
                match m3.reveal_list new_location.cardinals with
                | .error e => .error e
                | .ok m4 => .ok (m4, { atron with context := some newCtx })
    | .WALL =>
      .ok (m, { atron with
                health := atron.health.count (-Icon.WALL.health_cost) })
    | .MINERAL =>
      match m.total_minerals.getKey new_location with
      | .error e => .error e
      | .ok cur =>
        let m1 : MapData :=
          { m with total_minerals :=
              m.total_minerals.setKey new_location (cur - 1) }
        let atron' : Atron := { atron with payload := atron.payload.count 1 }
        if cur - 1 ≤ 0 then
          match m1.clear_tile new_location with
          | .error e => .error e
          | .ok m2 =>
            .ok ({ m2 with total_minerals :=
                     m2.total_minerals.delKey new_location }, atron')
        else .ok (m1, atron')
    | _ => .ok (m, atron)

/-- N successive move_to calls with the same target. -/
def MapData.move_to_n (m : MapData) (atron : Atron) (target : Coordinate) :
    Nat → Except Err (MapData × Atron)
  | 0 => .ok (m, atron)
  | n + 1 =>
    match m.move_to atron target with
    | .error e => .error e
    | .ok (m', a') => m'.move_to_n a' target n

/-- MapData.deploy_atron.  The result carries the state reached when an
exception is raised, because the Python code mutates in place: the
occupancy check happens before any mutation, so a LandingZoneOccupied
failure returns the untouched map and atron. -/
def MapData.deploy_atron (m : MapData) (atron : Atron) :
    MapData × Atron × Except Err Unit :=
  match m.getItem m.landing_zone with
  | .error e => (m, atron, .error e)
  | .ok t =>
    if t.icon ≠ .DEPLOY_ZONE then
      (m, atron, .error (.valueError .landingZoneOccupied))
    else
      match m.build_context m.landing_zone with
      | .error e => (m, atron, .error e)
      | .ok ctx =>
        let atron' : Atron := { atron with context := some ctx }
        match m.setIcon m.landing_zone atron.icon with
        | .error e => (m, atron', .error e)
        | .ok m1 =>
          match m1.reveal_tile m.landing_zone with
          | .error e => (m1, atron', .error e)
          | .ok m2 =>
            match m2.reveal_list m.landing_zone.cardinals with
            | .error e => (m2, atron', .error e)
            | .ok m3 => (m3, atron', .ok ())

/-- MapData.remove_drone: undeploys the drone first and only then reads
`drone.context.coord`, which the undeploy just cleared, so the context
property getter raises.  The result carries the mutated drone state. -/
def MapData.remove_drone (m : MapData) (drone : Atron) :
    MapData × Atron × Except Err Int :=
  let p := drone.undeploy
  match p.1.context_get with
  | .error e => (m, p.1, .error e)
  | .ok ctx =>
    match m.clear_tile ctx.coord with
    | .error e => (m, p.1, .error e)
    | .ok m' => (m', p.1, .ok p.2)

/-! ## Drones and tick resolution -/

/-- Drone: an atron with a per-tick move allowance and a policy mapping
the current context to a direction.  The policy is modelled from the
spec wording (the drone queries its own policy or path), because the
concrete Drone.action implementations are not part of the engine. -/
structure Drone where
  base : Atron
  moves : Nat
  action : Context → Directions

/-- One iteration of the per-drone body of MapData.tick: acid damage is
applied via `count(-ACID.health_cost())` before movement, a dead drone
is cleared and undeployed (breaking out of its move loop), otherwise the
policy direction is followed unless it is CENTER. -/
def MapData.tick_one_move (m : MapData) (d : Drone) :
    Except Err (MapData × Drone × Bool) :=
  match d.base.context_get with
  | .error e => .error e
  | .ok ctx =>
    let d1 : Drone :=
      if ctx.coord ∈ m.acid then
        { d with base :=
            { d.base with
              health := d.base.health.count (-Icon.ACID.health_cost) } }
      else d
    if d1.base.health.get ≤ 0 then
      match m.clear_tile ctx.coord with
      | .error e => .error e
      | .ok m' => .ok (m', { d1 with base := (d1.base.undeploy).1 }, true)
    else
      let dir := d1.action ctx
      if dir ≠ Directions.CENTER then
        match m.move_to d1.base (ctx.coord.translate_one dir) with
        | .error e => .error e
        | .ok (m', a') => .ok (m', { d1 with base := a' }, false)
      else .ok (m, d1, false)

/-- The `for _ in range(drone.moves)` loop of MapData.tick. -/
def MapData.tick_moves (m : MapData) (d : Drone) :
    Nat → Except Err (MapData × Drone)
  | 0 => .ok (m, d)
  | n + 1 =>
    match m.tick_one_move d with
    | .error e => .error e
    | .ok (m', d', died) =>
      if died then .ok (m', d') else m'.tick_moves d' n

/-- MapData.tick over a collection of drones, in iteration order. -/
def MapData.tick (m : MapData) : List Drone → Except Err (MapData × List Drone)
  | [] => .ok (m, [])
  | d :: rest =>
    match m.tick_moves d d.moves with
    | .error e => .error e
    | .ok (m', d') =>
      match m'.tick rest with
      | .error e => .error e
      | .ok (m'', rest') => .ok (m'', d' :: rest')

/-- Repeated whole-map ticks of a single drone (for the acid scenario). -/
def MapData.tick_n (m : MapData) (d : Drone) :
    Nat → Except Err (MapData × Drone)
  | 0 => .ok (m, d)
  | n + 1 =>
    match m.tick_moves d d.moves with
    | .error e => .error e
    | .ok (m', d') => m'.tick_n d' n

/-! ## Tile (src/utils/tile.py) -/

/-- A tkinter BooleanVar: a mutable cell holding a Bool. -/
structure BoolVar where
  value : Bool
  deriving DecidableEq, Repr

/-- Python truthiness of a BooleanVar object.  tkinter variables define
neither a bool nor a len override, so the object itself is always truthy
regardless of the stored value; `not self.discovered` in tile.py tests
the object, not `self.discovered.get()`. -/
def BoolVar.truthy (_ : BoolVar) : Bool := true

/-- Tile from tile.py: coordinate, surface icon, terrain icon, discovered
flag and optional occupant. -/
structure Tile where
  coordinate : Coordinate
  surface : Icon
  terrain : Icon
  discovered : BoolVar
  occupation : Option Atron
  deriving DecidableEq, Repr

/-- The Tile.surface property setter: always stores the surface icon and
copies it into the terrain exactly when the icon is traversable. -/
def Tile.set_surface (t : Tile) (icon : Icon) : Tile :=
  let t1 : Tile := { t with surface := icon }
  if icon.traversable then { t1 with terrain := icon } else t1

/-- Tile._occupy: the undiscovered guard tests BoolVar truthiness, a
non-traversable surface fails with False, otherwise the occupant is
recorded and the surface becomes the atron icon (set directly on the
surface variable, bypassing the surface property setter). -/
def Tile.occupy (t : Tile) (atron : Atron) : Except Err (Tile × Bool) :=
  if ¬ t.discovered.truthy then
    .error (.runtimeError .undiscoveredOccupy)
  else if ¬ t.surface.traversable then .ok (t, false)
  else .ok ({ t with occupation := some atron, surface := atron.icon }, true)

/-- Tile._unoccupy: the undiscovered guard tests BoolVar truthiness, no
occupant fails with False, otherwise the occupant is cleared and the
surface variable restored from the terrain. -/
def Tile.unoccupy (t : Tile) : Except Err (Tile × Bool) :=
  if ¬ t.discovered.truthy then
    .error (.runtimeError .undiscoveredUnoccupy)
  else
    match t.occupation with
    | none => .ok (t, false)
    | some _ => .ok ({ t with occupation := none, surface := t.terrain }, true)

/-! ## The earlier map revision (src/utils/map.py) -/

/-- A drone as seen by map.py: a Python identity, a context and a plain
integer payload. -/
structure DroneOld where
  ident : Nat
  context : Context
  payload : Int
  deriving DecidableEq, Repr

/-- The map.py MapData state needed by remove_atron. -/
structure MapOld where
  landing_zone : Coordinate
  all_icons : List (List Icon)
  drones : List DroneOld
  deriving DecidableEq, Repr

/-- map.py MapData._set_actual_icon. -/
def MapOld.set_actual_icon (m : MapOld) (coord : Coordinate) (icon : Icon) :
    Except Err MapOld :=
  match listIndex m.all_icons coord.y with
  | .error e => .error e
  | .ok row =>
    match listUpdate row coord.x icon with
    | .error e => .error e
    | .ok row' =>
      match listUpdate m.all_icons coord.y row' with
      | .error e => .error e
      | .ok icons' => .ok { m with all_icons := icons' }

/-- The loop body of map.py MapData.remove_atron: scan the drone list for
the one with the given identity that also stands on the landing zone;
restore the deploy-zone icon, drop it from the list and return its
payload.  Falling off the loop returns None. -/
def MapOld.remove_atron_go (m : MapOld) (atron_id : Nat)
    (seen : List DroneOld) :
    List DroneOld → Except Err (MapOld × Option Int)
  | [] => .ok (m, none)
  | d :: rest =>
    if atron_id = d.ident ∧ d.context.coord = m.landing_zone then
      match m.set_actual_icon d.context.coord .DEPLOY_ZONE with
      | .error e => .error e
      | .ok m' =>
        .ok ({ m' with drones := seen.reverse ++ rest }, some d.payload)
    else m.remove_atron_go atron_id (d :: seen) rest

/-- map.py MapData.remove_atron. -/
def MapOld.remove_atron (m : MapOld) (atron_id : Nat) :
    Except Err (MapOld × Option Int) :=
  m.remove_atron_go atron_id [] m.drones

/-! ## Path search (src/units/ally/overlord.py) -/

/-- The NODE_WEIGHTS table: only empty, atron, deploy-zone and acid icons
are pathable; acid costs 10, the rest 1. -/
def node_weight? : Icon → Option Int
  | .EMPTY => some 1
  | .ATRON => some 1
  | .DEPLOY_ZONE => some 1
  | .ACID => some 10
  | _ => none

/-- Tuple comparison on coordinates as Python compares (x, y) tuples. -/
def Coordinate.lexLe (a b : Coordinate) : Bool :=
  if a.x < b.x then true
  else if b.x < a.x then false
  else a.y ≤ b.y

/-- Tuple comparison on priority-queue entries as heapq compares them. -/
def pqLe (a b : Int × Coordinate) : Bool :=
  if a.1 < b.1 then true
  else if b.1 < a.1 then false
  else a.2.lexLe b.2

/-- Remove the minimal entry of the priority queue, as successive heapq
pops would order entries.  Ties are exact duplicates, so which of two
equal entries is removed does not matter. -/
def popMin : List (Int × Coordinate) →
    Option ((Int × Coordinate) × List (Int × Coordinate))
  | [] => none
  | x :: xs =>
    match popMin xs with
    | none => some (x, [])
    | some (mn, rest) =>
      if pqLe x mn then some (x, xs) else some (mn, x :: rest)

/-- Lookup in the parents dict; insertion is cons, so the most recent
write for a key wins, matching dict overwrite semantics. -/
def pmLookup : List (Coordinate × Coordinate) → Coordinate → Option Coordinate
  | [], _ => none
  | (k, v) :: rest, c => if c = k then some v else pmLookup rest c

/-- Overlord._add_to_path: look each neighbor coordinate up in the map
(with a None default, so an out-of-range positive index still raises),
skip missing tiles and non-pathable icons, and otherwise record the
parent and push the tile coordinate with its raw terrain weight. -/
def MapData.add_to_path (m : MapData) (node : Coordinate) :
    List Coordinate → List (Coordinate × Coordinate) →
    List (Int × Coordinate) →
    Except Err (List (Coordinate × Coordinate) × List (Int × Coordinate))
  | [], parents, pq => .ok (parents, pq)
  | nc :: rest, parents, pq =>
    match m.get nc none with
    | .error e => .error e
    | .ok none => m.add_to_path node rest parents pq
    | .ok (some t) =>
      match node_weight? t.icon with
      | none => m.add_to_path node rest parents pq
      | some w =>
        m.add_to_path node rest ((t.coordinate, node) :: parents)
          (pq ++ [(w, t.coordinate)])

/-- The while loop of Overlord._dijkstra, embedded with fuel.  Returns
`none` when the queue empties without finding the end (path_found stays
False) and the final parents map when the end is found, either by being
popped or by the cardinal-neighbor short circuit. -/
def MapData.dloop (m : MapData) (ed : Coordinate) :
    Nat → List (Int × Coordinate) → List Coordinate →
    List (Coordinate × Coordinate) →
    Except Err (Option (List (Coordinate × Coordinate)))
  | 0, _, _, _ => .error .fuelOut
  | fuel + 1, pq, visited, parents =>
    match popMin pq with
    | none => .ok none
    | some (e, pq') =>
      if e.2 ∈ visited then m.dloop ed fuel pq' visited parents
      else if e.2 = ed then .ok (some parents)
      else if ed ∈ e.2.cardinals then .ok (some ((ed, e.2) :: parents))
      else
        match m.add_to_path e.2
            (e.2.cardinals.filter (fun c => c ∉ (e.2 :: visited)))
            parents pq' with
        | .error e' => .error e'
        | .ok (parents', pq'') =>
          m.dloop ed fuel pq'' (e.2 :: visited) parents'

/-- The while loop of Overlord._build_final_path, embedded with fuel: walk
the parents map from the end, stopping early when the start shows up as a
cardinal neighbor of the current node.  One lookup per stored parent
suffices for an acyclic parents chain. -/
def bfp_loop (start : Coordinate) (parents : List (Coordinate × Coordinate)) :
    Nat → Coordinate → List Coordinate → Except Err (List Coordinate)
  | 0, _, _ => .error .fuelOut
  | fuel + 1, curr, acc =>
    if curr = start then .ok acc
    else
      match pmLookup parents curr with
      | none => .error .keyError
      | some coord =>
        if start ∈ coord.cardinals then .ok (acc ++ [coord])
        else bfp_loop start parents fuel coord (acc ++ [coord])

/-- Overlord._build_final_path: collect from the end, append the start,
then reverse. -/
def build_final_path (start ed : Coordinate)
    (parents : List (Coordinate × Coordinate)) :
    Except Err (List Coordinate) :=
  match bfp_loop start parents (parents.length + 1) ed [ed] with
  | .error e => .error e
  | .ok lst => .ok ((lst ++ [start]).reverse)

/-- Total number of tile cells of the grid. -/
def MapData.gridCount (m : MapData) : Nat :=
  (m.all_tiles.map List.length).sum

/-- Overlord._dijkstra: run the search loop from the start with priority 0
and reconstruct the path when one was found; otherwise return the empty
path.  The fuel is sufficient for the loop on any input the theorems
below speak about. -/
def MapData.dijkstra (m : MapData) (start ed : Coordinate) :
    Except Err (List Coordinate) :=
  match m.dloop ed (5 * m.gridCount + 12) [(0, start)] [] [] with
  | .error e => .error e
  | .ok none => .ok []
  | .ok (some parents) => build_final_path start ed parents

/-! ## Concrete maps used by witnesses and counterexamples -/

/-- Build one tile row from icons, tagging grid coordinates. -/
def rowOfIcons (y : Nat) (icons : List Icon) : List TileM :=
  icons.enum.map (fun p => ⟨⟨p.1, y⟩, p.2, false⟩)

/-- Build the tile grid from icon rows, tagging grid coordinates. -/
def gridOfIcons (rows : List (List Icon)) : List (List TileM) :=
  rows.enum.map (fun p => rowOfIcons p.1 p.2)

/-- A 5 by 5 box: outer walls, interior all empty. -/
def boxMap5 : MapData :=
  ⟨⟨1, 1⟩,
   gridOfIcons
     [[.WALL, .WALL, .WALL, .WALL, .WALL],
      [.WALL, .EMPTY, .EMPTY, .EMPTY, .WALL],
      [.WALL, .EMPTY, .EMPTY, .EMPTY, .WALL],
      [.WALL, .EMPTY, .EMPTY, .EMPTY, .WALL],
      [.WALL, .WALL, .WALL, .WALL, .WALL]],
   fun _ => none, []⟩

/-- A 5 by 5 map whose center cell (2,2) is sealed off by walls. -/
def sealedMap5 : MapData :=
  ⟨⟨1, 1⟩,
   gridOfIcons
     [[.WALL, .WALL, .WALL, .WALL, .WALL],
      [.WALL, .EMPTY, .WALL, .EMPTY, .WALL],
      [.WALL, .WALL, .EMPTY, .WALL, .WALL],
      [.WALL, .EMPTY, .WALL, .EMPTY, .WALL],
      [.WALL, .WALL, .WALL, .WALL, .WALL]],
   fun _ => none, []⟩

/-- A 3 by 3 box whose single interior cell (1,1) is acid. -/
def acidMap3 : MapData :=
  ⟨⟨-7, -7⟩,
   gridOfIcons
     [[.WALL, .WALL, .WALL],
      [.WALL, .ACID, .WALL],
      [.WALL, .WALL, .WALL]],
   fun _ => none, [⟨1, 1⟩]⟩

/-- A 5 by 5 box with a mineral deposit of 2 units at (3,1). -/
def mineralMap5 : MapData :=
  ⟨⟨1, 1⟩,
   gridOfIcons
     [[.WALL, .WALL, .WALL, .WALL, .WALL],
      [.WALL, .EMPTY, .EMPTY, .MINERAL, .WALL],
      [.WALL, .EMPTY, .EMPTY, .EMPTY, .WALL],
      [.WALL, .EMPTY, .EMPTY, .EMPTY, .WALL],
      [.WALL, .WALL, .WALL, .WALL, .WALL]],
   fun c => if c = ⟨3, 1⟩ then some 2 else none, []⟩

/-- A 5 by 5 box whose landing zone (1,1) is occupied by a miner icon. -/
def occupiedMap5 : MapData :=
  ⟨⟨1, 1⟩,
   gridOfIcons
     [[.WALL, .WALL, .WALL, .WALL, .WALL],
      [.WALL, .MINER, .EMPTY, .EMPTY, .WALL],
      [.WALL, .EMPTY, .EMPTY, .EMPTY, .WALL],
      [.WALL, .EMPTY, .EMPTY, .EMPTY, .WALL],
      [.WALL, .WALL, .WALL, .WALL, .WALL]],
   fun _ => none, []⟩

/-- An atron with full health 40/40 and an empty payload of capacity 10,
deployed at (2,1) of a 5 by 5 box. -/
def minerA : Atron :=
  ⟨⟨40, 40, 40⟩, ⟨0, 0, 10⟩,
   some ⟨⟨2, 1⟩, .UNKNOWN, .UNKNOWN, .UNKNOWN, .UNKNOWN⟩, .MINER⟩

/-- An atron with health 5 of 40, deployed at (1,1) of a 5 by 5 box. -/
def woundedA : Atron :=
  ⟨⟨5, 40, 40⟩, ⟨0, 0, 10⟩,
   some ⟨⟨1, 1⟩, .UNKNOWN, .UNKNOWN, .UNKNOWN, .UNKNOWN⟩, .MINER⟩

/-- A drone with health 10 of 10 standing on the acid cell of acidMap3,
whose policy always stays put. -/
def acidDrone : Drone :=
  ⟨⟨⟨10, 10, 10⟩, ⟨0, 0, 10⟩,
    some ⟨⟨1, 1⟩, .WALL, .WALL, .WALL, .WALL⟩, .MINER⟩, 1, fun _ => .CENTER⟩

/-- The acid drone at health 4 of 10. -/
def acidDroneLow : Drone :=
  ⟨⟨⟨4, 10, 10⟩, ⟨0, 0, 10⟩,
    some ⟨⟨1, 1⟩, .WALL, .WALL, .WALL, .WALL⟩, .MINER⟩, 1, fun _ => .CENTER⟩

/-- A deployed drone carrying payload 4 at (2,2), away from the (1,1)
landing zone of mineralMap5. -/
def strandedA : Atron :=
  ⟨⟨40, 40, 40⟩, ⟨4, 0, 10⟩,
   some ⟨⟨2, 2⟩, .UNKNOWN, .UNKNOWN, .UNKNOWN, .UNKNOWN⟩, .MINER⟩

/-- An undiscovered tile with an empty traversable surface. -/
def hiddenTile : Tile := ⟨⟨0, 0⟩, .EMPTY, .EMPTY, ⟨false⟩, none⟩

/-- An undiscovered tile occupied by minerA. -/
def hiddenOccupiedTile : Tile := ⟨⟨0, 0⟩, .MINER, .EMPTY, ⟨false⟩, some minerA⟩

/-- The map.py state with one drone of identity 7 deployed at (2,2),
away from the (1,1) landing zone. -/
def mapOld1 : MapOld :=
  ⟨⟨1, 1⟩,
   [[.WALL, .WALL, .WALL, .WALL, .WALL],
    [.WALL, .DEPLOY_ZONE, .EMPTY, .EMPTY, .WALL],
    [.WALL, .EMPTY, .EMPTY, .EMPTY, .WALL],
    [.WALL, .EMPTY, .EMPTY, .EMPTY, .WALL],
    [.WALL, .WALL, .WALL, .WALL, .WALL]],
   [⟨7, ⟨⟨2, 2⟩, .EMPTY, .EMPTY, .EMPTY, .EMPTY⟩, 4⟩]⟩

/-! ## Grid well-formedness notions used to state the search claims -/

/-- An icon is pathable when the NODE_WEIGHTS table has an entry for it. -/
def isPathable (i : Icon) : Bool := (node_weight? i).isSome

/-- Number of tile rows. -/
def MapData.heightN (m : MapData) : Nat := m.all_tiles.length

/-- The tile row of a natural row index (empty when out of range). -/
def MapData.rowAt (m : MapData) (y : Nat) : List TileM :=
  m.all_tiles.getD y []

/-- A default tile used by total lookups in statements. -/
def defaultTileM : TileM := ⟨⟨0, 0⟩, .UNKNOWN, false⟩

/-- The tile of a natural grid position (a default tile out of range). -/
def MapData.tileAtN (m : MapData) (x y : Nat) : TileM :=
  (m.rowAt y).getD x defaultTileM

/-- Every row has width w. -/
def MapData.rectOk (m : MapData) (w : Nat) : Prop :=
  ∀ y < m.heightN, (m.rowAt y).length = w

/-- Every tile stores its own grid position as its coordinate. -/
def MapData.coordsOk (m : MapData) : Prop :=
  ∀ y < m.heightN, ∀ x < (m.rowAt y).length,
    (m.tileAtN x y).coordinate = ⟨(x : Int), (y : Int)⟩

/-- Every tile on the outer ring of a w by h grid is a wall. -/
def MapData.borderOk (m : MapData) (w h : Nat) : Prop :=
  ∀ y < m.heightN, ∀ x < (m.rowAt y).length,
    (x = 0 ∨ x = w - 1 ∨ y = 0 ∨ y = h - 1) → (m.tileAtN x y).icon = .WALL

/-- The coordinate resolves to a tile whose icon is pathable. -/
def MapData.pathableAt (m : MapData) (c : Coordinate) : Bool :=
  match m.getItem c with
  | .ok t => isPathable t.icon
  | .error _ => false

/-- The coordinate is negative, out of the grid, or resolves to a wall. -/
def MapData.wallOrOut (m : MapData) (d : Coordinate) : Bool :=
  if d.x < 0 ∨ d.y < 0 then true
  else
    match m.getItem d with
    | .ok t => t.icon = .WALL
    | .error _ => true

/-- All true (nonnegative-index) grid positions as coordinates. -/
def MapData.gridCoordsList (m : MapData) : List Coordinate :=
  (List.range m.heightN).flatMap fun y =>
    (List.range (m.rowAt y).length).map fun (x : Nat) =>
      (⟨(x : Int), (y : Int)⟩ : Coordinate)

/-- How many grid positions have not been visited yet: the termination
measure of the search loop counts these. -/
def MapData.unvisitedCount (m : MapData) (visited : List Coordinate) : Nat :=
  m.gridCoordsList.countP (fun c => decide (c ∉ visited))

/-- A pathable in-map coordinate: nonnegative components resolving to a
tile whose icon has a NODE_WEIGHTS entry.  Every coordinate the search
queue ever holds satisfies this (or is the start, which also does). -/
def MapData.pim (m : MapData) (c : Coordinate) : Prop :=
  0 ≤ c.x ∧ 0 ≤ c.y ∧ m.pathableAt c = true

/-! # Theorems -/

/-- C10: assigning an icon to the surface property sets the terrain to the
same icon exactly when the icon is traversable (DeployZone, Acid or
Empty); a non-traversable icon changes the surface only, with coordinate,
discovered flag and occupant untouched in both cases. -/
theorem C10_surface_terrain_coupling (t : Tile) (i : Icon) :
    (t.set_surface i).surface = i ∧
    (t.set_surface i).terrain = (if i.traversable then i else t.terrain) ∧
    (t.set_surface i).coordinate = t.coordinate ∧
    (t.set_surface i).discovered = t.discovered ∧
    (t.set_surface i).occupation = t.occupation ∧
    (i.traversable = true ↔ i = .DEPLOY_ZONE ∨ i = .ACID ∨ i = .EMPTY) := by
  unfold Tile.set_surface
  cases i <;> simp [Icon.traversable]

/-- Witness for C10 at a concrete tile: a wall write leaves the terrain
as it was, an acid write copies itself into the terrain. -/
theorem C10_surface_terrain_coupling_witness :
    (hiddenTile.set_surface .WALL).surface = .WALL ∧
    (hiddenTile.set_surface .WALL).terrain =
      (if Icon.WALL.traversable then .WALL else hiddenTile.terrain) ∧
    (hiddenTile.set_surface .ACID).terrain =
      (if Icon.ACID.traversable then .ACID else hiddenTile.terrain) :=
  ⟨(C10_surface_terrain_coupling hiddenTile .WALL).1,
   (C10_surface_terrain_coupling hiddenTile .WALL).2.1,
   (C10_surface_terrain_coupling hiddenTile .ACID).2.1⟩

/-- C9 is a code bug: the undiscovered guard of Tile._occupy and
Tile._unoccupy tests `not self.discovered`, the truthiness of the
BooleanVar object rather than its stored value, so it never fires.
Occupying an undiscovered tile with a traversable surface succeeds and
mutates the tile instead of raising, and likewise unoccupying. -/
theorem C9_undiscovered_guard_dead :
    hiddenTile.discovered.value = false ∧
    hiddenTile.occupy minerA =
      .ok ({ hiddenTile with occupation := some minerA, surface := .MINER },
        true) ∧
    hiddenOccupiedTile.discovered.value = false ∧
    hiddenOccupiedTile.unoccupy =
      .ok ({ hiddenOccupiedTile with occupation := none, surface := .EMPTY },
        true) := by
  exact ⟨rfl, rfl, rfl, rfl⟩

/-- C2 is a code bug: moving into a wall executes
`atron.health.count(-Icon.WALL.health_cost())`, which adds 1 because the
health cost of a wall is already the negative number -1.  An atron at
health 5 of 40 ends at 6 after walking into the wall at (0,1); the claim
and the health_cost documentation require 4.  The position (context) and
payload are indeed unchanged. -/
theorem C2_wall_collision_heals :
    (boxMap5.move_to woundedA ⟨0, 1⟩).map
        (fun p => (p.2.health.value, p.2.context, p.2.payload)) =
      .ok (6, woundedA.context, woundedA.payload) ∧
    (boxMap5.getItem ⟨0, 1⟩).map TileM.icon = .ok .WALL ∧
    woundedA.health.value = 5 := by
  exact ⟨rfl, rfl, rfl⟩

/-- C3 is a code bug: the acid branch of MapData.tick executes
`drone.health.count(-Icon.ACID.health_cost())`, which adds 3 because the
acid health cost is already the negative number -3.  A drone at full
health 10 of 10 standing in acid for 3 ticks stays at 10 (the claim says
1), and a drone at 4 of 10 rises to 7 after a single acid tick. -/
theorem C3_acid_heals_not_damages :
    (acidMap3.tick_n acidDrone 3).map (fun p => p.2.base.health.value) =
      .ok 10 ∧
    (acidMap3.tick_n acidDroneLow 1).map (fun p => p.2.base.health.value) =
      .ok 7 ∧
    acidDrone.base.health.value = 10 ∧
    acidDroneLow.base.health.value = 4 := by
  exact ⟨rfl, rfl, rfl, rfl⟩

/-- C6: whenever the landing-zone tile icon is not DeployZone,
deploy_atron raises the landing-zone-occupied ValueError before touching
anything, so the returned map and atron are exactly the inputs: tiles,
mineral ledger and all counters are unchanged. -/
theorem C6_occupied_deploy_rejected (m : MapData) (a : Atron) (t : TileM)
    (ht : m.getItem m.landing_zone = .ok t) (hne : t.icon ≠ .DEPLOY_ZONE) :
    m.deploy_atron a = (m, a, .error (.valueError .landingZoneOccupied)) := by
  unfold MapData.deploy_atron
  rw [ht]
  simp [hne]

/-- Witness for C6: deploying onto the occupied landing zone of a
concrete map fails and returns the untouched state. -/
theorem C6_occupied_deploy_rejected_witness :
    occupiedMap5.deploy_atron minerA =
      (occupiedMap5, minerA, .error (.valueError .landingZoneOccupied)) :=
  C6_occupied_deploy_rejected occupiedMap5 minerA ⟨⟨1, 1⟩, .MINER, false⟩
    (by rfl) (by decide)

/-- Counter.set never touches the start or maximum fields. -/
theorem counter_set_fields (c : Counter) (v : Int) :
    (c.set v).start = c.start ∧ (c.set v).max_value = c.max_value := by
  unfold Counter.set
  split_ifs <;> simp

/-- Counter.set keeps the value within [0, max] for a bounded counter. -/
theorem counter_set_bounds (c : Counter) (v : Int) (h : 0 ≤ c.max_value) :
    0 ≤ (c.set v).value ∧ (c.set v).value ≤ c.max_value := by
  unfold Counter.set DEFAULT_VALUE
  split_ifs with h1 h2 <;> simp <;> omega

/-- Counter.set keeps the value nonnegative for an unbounded counter. -/
theorem counter_set_nonneg (c : Counter) (v : Int)
    (h : c.max_value = DEFAULT_VALUE) : 0 ≤ (c.set v).value := by
  unfold Counter.set
  split_ifs <;> simp <;> omega

/-- Counter.set stores the value exactly when it lies in range. -/
theorem counter_set_exact (c : Counter) (v : Int) (h0 : 0 ≤ v)
    (h1 : c.max_value = DEFAULT_VALUE ∨ v ≤ c.max_value) :
    (c.set v).value = v := by
  unfold Counter.set DEFAULT_VALUE at *
  split_ifs with ha hb
  · omega
  · exfalso
    rcases h1 with h1 | h1
    · exact hb.1 h1
    · omega
  · rfl

/-- Any sequence of set and count calls keeps a bounded counter within
[0, max] and preserves its start and maximum fields. -/
theorem counter_applyOps_bounded (mx : Int) (hmx : 0 ≤ mx) :
    ∀ (ops : List CounterOp) (c : Counter), c.max_value = mx →
      0 ≤ c.value → c.value ≤ mx →
      0 ≤ (c.applyOps ops).value ∧ (c.applyOps ops).value ≤ mx ∧
      (c.applyOps ops).max_value = mx ∧
      (c.applyOps ops).start = c.start := by
  intro ops
  induction ops with
  | nil => intro c hmax h0 h1; exact ⟨h0, h1, hmax, rfl⟩
  | cons op rest ih =>
    intro c hmax h0 h1
    have hstep : c.applyOps (op :: rest) = (c.applyOp op).applyOps rest := rfl
    have hfields : (c.applyOp op).start = c.start ∧
        (c.applyOp op).max_value = c.max_value := by
      cases op with
      | set v => exact counter_set_fields c v
      | count v => exact counter_set_fields c (c.get + v)
    have hbounds : 0 ≤ (c.applyOp op).value ∧ (c.applyOp op).value ≤ mx := by
      cases op with
      | set v =>
        have := counter_set_bounds c v (by omega)
        exact ⟨this.1, hmax ▸ this.2⟩
      | count v =>
        have := counter_set_bounds c (c.get + v) (by omega)
        exact ⟨this.1, hmax ▸ this.2⟩
    rw [hstep]
    have := ih (c.applyOp op) (hfields.2.trans hmax) hbounds.1 hbounds.2
    exact ⟨this.1, this.2.1, this.2.2.1, this.2.2.2.trans hfields.1⟩

/-- Any sequence of set and count calls keeps an unbounded counter
nonnegative and preserves its start and sentinel maximum. -/
theorem counter_applyOps_unbounded :
    ∀ (ops : List CounterOp) (c : Counter),
      c.max_value = DEFAULT_VALUE → 0 ≤ c.value →
      0 ≤ (c.applyOps ops).value ∧
      (c.applyOps ops).max_value = DEFAULT_VALUE ∧
      (c.applyOps ops).start = c.start := by
  intro ops
  induction ops with
  | nil => intro c hmax h0; exact ⟨h0, hmax, rfl⟩
  | cons op rest ih =>
    intro c hmax h0
    have hstep : c.applyOps (op :: rest) = (c.applyOp op).applyOps rest := rfl
    have hfields : (c.applyOp op).start = c.start ∧
        (c.applyOp op).max_value = c.max_value := by
      cases op with
      | set v => exact counter_set_fields c v
      | count v => exact counter_set_fields c (c.get + v)
    have hval : 0 ≤ (c.applyOp op).value := by
      cases op with
      | set v => exact counter_set_nonneg c v hmax
      | count v => exact counter_set_nonneg c (c.get + v) hmax
    rw [hstep]
    have := ih (c.applyOp op) (hfields.2.trans hmax) hval
    exact ⟨this.1, this.2.1, this.2.2.trans hfields.1⟩

/-- C4: a counter built with start s and maximum m (0 <= s <= m) stays in
[0, m] under any finite sequence of set and count calls and a subsequent
reset restores exactly s; an unbounded counter stays in [0, infinity);
construction fails when s < 0 or m < s. -/
theorem C4_counter_invariant (s mx : Int) (ops : List CounterOp) :
    (0 ≤ s → s ≤ mx →
      Counter.init (some s) (some mx) = .ok ⟨s, s, mx⟩ ∧
      0 ≤ ((⟨s, s, mx⟩ : Counter).applyOps ops).get ∧
      ((⟨s, s, mx⟩ : Counter).applyOps ops).get ≤ mx ∧
      (((⟨s, s, mx⟩ : Counter).applyOps ops).reset).get = s) ∧
    (0 ≤ s →
      Counter.init (some s) none = .ok ⟨s, s, DEFAULT_VALUE⟩ ∧
      0 ≤ ((⟨s, s, DEFAULT_VALUE⟩ : Counter).applyOps ops).get ∧
      (((⟨s, s, DEFAULT_VALUE⟩ : Counter).applyOps ops).reset).get = s) ∧
    (s < 0 → ∀ mxo, Counter.init (some s) mxo =
      .error (.valueError .valueNegative)) ∧
    (mx < s → 0 ≤ s → Counter.init (some s) (some mx) =
      .error (.valueError .maxBelowValue)) := by
  have hinit1 : Counter.init (some s) (some mx) =
      if s < 0 then .error (.valueError .valueNegative)
      else if mx < s then .error (.valueError .maxBelowValue)
      else .ok ⟨s, s, mx⟩ := rfl
  have hinit2 : Counter.init (some s) none =
      if s < 0 then .error (.valueError .valueNegative)
      else .ok ⟨s, s, DEFAULT_VALUE⟩ := rfl
  refine ⟨?_, ?_, ?_, ?_⟩
  · intro h0 h1
    have hinv := counter_applyOps_bounded mx (by omega) ops ⟨s, s, mx⟩
      rfl h0 h1
    refine ⟨by rw [hinit1, if_neg (by omega), if_neg (by omega)],
      hinv.1, hinv.2.1, ?_⟩
    show ((((⟨s, s, mx⟩ : Counter).applyOps ops).set
      ((⟨s, s, mx⟩ : Counter).applyOps ops).start).value) = s
    rw [hinv.2.2.2]
    exact counter_set_exact _ s h0 (Or.inr (by rw [hinv.2.2.1]; exact h1))
  · intro h0
    have hinv := counter_applyOps_unbounded ops ⟨s, s, DEFAULT_VALUE⟩ rfl h0
    refine ⟨by rw [hinit2, if_neg (by omega)], hinv.1, ?_⟩
    show ((((⟨s, s, DEFAULT_VALUE⟩ : Counter).applyOps ops).set
      ((⟨s, s, DEFAULT_VALUE⟩ : Counter).applyOps ops).start).value) = s
    rw [hinv.2.2]
    exact counter_set_exact _ s h0 (Or.inl hinv.2.1)
  · intro hneg mxo
    cases mxo with
    | some mxv =>
      have h : Counter.init (some s) (some mxv) =
          if s < 0 then .error (.valueError .valueNegative)
          else if mxv < s then .error (.valueError .maxBelowValue)
          else .ok ⟨s, s, mxv⟩ := rfl
      rw [h, if_pos hneg]
    | none => rw [hinit2, if_pos hneg]
  · intro hlt h0
    rw [hinit1, if_neg (by omega), if_pos hlt]

/-- Witness for C4 at start 2, maximum 5 and a concrete call sequence,
together with a rejected construction. -/
theorem C4_counter_invariant_witness :
    (Counter.init (some 2) (some 5) = .ok ⟨2, 2, 5⟩ ∧
      0 ≤ ((⟨2, 2, 5⟩ : Counter).applyOps
        [.set 99, .count (-7), .count 3]).get ∧
      ((⟨2, 2, 5⟩ : Counter).applyOps
        [.set 99, .count (-7), .count 3]).get ≤ 5 ∧
      (((⟨2, 2, 5⟩ : Counter).applyOps
        [.set 99, .count (-7), .count 3]).reset).get = 2) ∧
    Counter.init (some (-3)) (some 5) = .error (.valueError .valueNegative) :=
  ⟨(C4_counter_invariant 2 5 [.set 99, .count (-7), .count 3]).1
      (by decide) (by decide),
   (C4_counter_invariant (-3) 5 []).2.2.1 (by decide) (some 5)⟩

/-- A nonnegative in-range index resolves to the getD entry. -/
theorem listIndex_pos {α : Type} {l : List α} {i : Int} (h0 : 0 ≤ i)
    (h1 : i < (l.length : Int)) (dflt : α) :
    listIndex l i = .ok (l.getD i.toNat dflt) := by
  have hp : pyIndex l.length i = some i.toNat := by
    simp only [pyIndex]
    rw [if_neg (show ¬ i < 0 by omega), if_pos ⟨h0, h1⟩]
  have hlt : i.toNat < l.length := by omega
  unfold listIndex
  simp only [hp]
  rw [dif_pos hlt]
  congr 1
  rw [List.getD_eq_getElem?_getD, List.getElem?_eq_getElem hlt]
  rfl

/-- An index at or beyond the length raises IndexError. -/
theorem listIndex_big {α : Type} {l : List α} {i : Int}
    (h : (l.length : Int) ≤ i) :
    listIndex l i = .error .indexError := by
  have hp : pyIndex l.length i = none := by
    simp only [pyIndex]
    rw [if_neg (show ¬ i < 0 by omega),
      if_neg (show ¬ (0 ≤ i ∧ i < (l.length : Int)) by omega)]
  unfold listIndex
  simp only [hp]

/-- A negative index within range wraps to length + i. -/
theorem listIndex_wrap {α : Type} {l : List α} {i : Int}
    (h0 : -(l.length : Int) ≤ i) (h1 : i < 0) :
    listIndex l i = listIndex l (i + l.length) := by
  have hp : pyIndex l.length i = pyIndex l.length (i + l.length) := by
    simp only [pyIndex]
    rw [if_pos h1, if_neg (show ¬ i + (l.length : Int) < 0 by omega)]
  unfold listIndex
  rw [hp]

/-- C8 amended: for in-bounds coordinates both indexing and get return
the stored tile; a row or column index at or beyond the grid size raises
IndexError from both (get catches only KeyError, so the caller-supplied
default is never returned); a negative index within range silently wraps
to the other side of the grid. -/
theorem C8_lookup_semantics (m : MapData) (c : Coordinate)
    (d : Option TileM) :
    (0 ≤ c.y → c.y < (m.heightN : Int) → 0 ≤ c.x →
      c.x < ((m.rowAt c.y.toNat).length : Int) →
      m.getItem c = .ok (m.tileAtN c.x.toNat c.y.toNat) ∧
      m.get c d = .ok (some (m.tileAtN c.x.toNat c.y.toNat))) ∧
    ((m.heightN : Int) ≤ c.y →
      m.getItem c = .error .indexError ∧
      m.get c d = .error .indexError) ∧
    (0 ≤ c.y → c.y < (m.heightN : Int) →
      ((m.rowAt c.y.toNat).length : Int) ≤ c.x →
      m.getItem c = .error .indexError ∧
      m.get c d = .error .indexError) ∧
    (-(m.heightN : Int) ≤ c.y → c.y < 0 →
      m.getItem c = m.getItem ⟨c.x, c.y + m.heightN⟩ ∧
      m.get c d = m.get ⟨c.x, c.y + m.heightN⟩ d) := by
  refine ⟨?_, ?_, ?_, ?_⟩
  · intro h0y h1y h0x h1x
    have hrow : listIndex m.all_tiles c.y = .ok (m.rowAt c.y.toNat) :=
      listIndex_pos h0y h1y []
    have htile : listIndex (m.rowAt c.y.toNat) c.x =
        .ok (m.tileAtN c.x.toNat c.y.toNat) :=
      listIndex_pos h0x h1x defaultTileM
    have hget : m.getItem c = .ok (m.tileAtN c.x.toNat c.y.toNat) := by
      unfold MapData.getItem
      rw [hrow]
      exact htile
    refine ⟨hget, ?_⟩
    unfold MapData.get
    rw [hget]
  · intro hy
    have hget : m.getItem c = .error .indexError := by
      unfold MapData.getItem
      rw [listIndex_big hy]
    refine ⟨hget, ?_⟩
    unfold MapData.get
    rw [hget]
  · intro h0y h1y hx
    have hrow : listIndex m.all_tiles c.y = .ok (m.rowAt c.y.toNat) :=
      listIndex_pos h0y h1y []
    have hget : m.getItem c = .error .indexError := by
      unfold MapData.getItem
      rw [hrow]
      exact listIndex_big hx
    refine ⟨hget, ?_⟩
    unfold MapData.get
    rw [hget]
  · intro h0y h1y
    have hget : m.getItem c = m.getItem ⟨c.x, c.y + m.heightN⟩ := by
      unfold MapData.getItem
      rw [listIndex_wrap h0y h1y]
      rfl
    refine ⟨hget, ?_⟩
    unfold MapData.get
    rw [hget]

/-- Witness for C8 on the concrete 5 by 5 box: an in-bounds lookup at
(2,2), an IndexError from both lookups at (0,5), and the wrap of (0,-1)
to row 4. -/
theorem C8_lookup_semantics_witness :
    (boxMap5.getItem ⟨2, 2⟩ = .ok (boxMap5.tileAtN 2 2) ∧
      boxMap5.get ⟨2, 2⟩ (some defaultTileM) =
        .ok (some (boxMap5.tileAtN 2 2))) ∧
    (boxMap5.getItem ⟨0, 5⟩ = .error .indexError ∧
      boxMap5.get ⟨0, 5⟩ (some defaultTileM) = .error .indexError) ∧
    boxMap5.getItem ⟨0, -1⟩ = boxMap5.getItem ⟨0, -1 + boxMap5.heightN⟩ :=
  ⟨(C8_lookup_semantics boxMap5 ⟨2, 2⟩ (some defaultTileM)).1
      (by decide) (by decide) (by decide) (by decide),
   (C8_lookup_semantics boxMap5 ⟨0, 5⟩ (some defaultTileM)).2.1 (by decide),
   ((C8_lookup_semantics boxMap5 ⟨0, -1⟩ (some defaultTileM)).2.2.2
      (by decide) (by decide)).1⟩

/-- C8 counterexample: the claim says an out-of-bounds get returns the
caller-supplied default and out-of-bounds indexing always fails; on the
5 by 5 box, get at (0,5) raises IndexError instead of returning the
default, and indexing at the out-of-bounds (0,-1) silently returns the
bottom-left wall tile. -/
theorem C8_counterexample :
    boxMap5.get ⟨0, 5⟩ (some defaultTileM) = .error .indexError ∧
    boxMap5.get ⟨0, 5⟩ (some defaultTileM) ≠ .ok (some defaultTileM) ∧
    boxMap5.getItem ⟨0, -1⟩ = .ok ⟨⟨0, 4⟩, .WALL, false⟩ := by
  have h1 : boxMap5.get ⟨0, 5⟩ (some defaultTileM) = .error .indexError := rfl
  refine ⟨h1, ?_, rfl⟩
  rw [h1]
  intro h
  exact Except.noConfusion h

/-- Scanning the drone list finds nothing when every drone with the
searched identity stands away from the landing zone. -/
theorem remove_atron_go_none (mo : MapOld) (aid : Nat) :
    ∀ (rest seen : List DroneOld),
      (∀ dr ∈ rest, dr.ident = aid → dr.context.coord ≠ mo.landing_zone) →
      mo.remove_atron_go aid seen rest = .ok (mo, none) := by
  intro rest
  induction rest with
  | nil => intro seen h; rfl
  | cons dr tl ih =>
    intro seen h
    have hcond : ¬ (aid = dr.ident ∧ dr.context.coord = mo.landing_zone) := by
      rintro ⟨h1, h2⟩
      exact (h dr (List.mem_cons_self dr tl) h1.symm) h2
    unfold MapOld.remove_atron_go
    rw [if_neg hcond]
    exact ih (dr :: seen) (fun d hd => h d (List.mem_cons_of_mem _ hd))

/-- C5 amended: remove_drone performs no landing-zone check at all; it
undeploys the drone wherever it stands (context cleared, payload counter
reset) and then raises the context-not-set ValueError when it reads the
context it just cleared, so the drone does not stay deployed.  In the
earlier map.py revision, remove_atron extracts only when the drone is at
the landing zone and otherwise returns None with map and drone list
untouched (and no NotAtLandingZone error exists anywhere). -/
theorem C5_remove_semantics :
    (∀ (m : MapData) (d : Atron) (ctx : Context), d.context = some ctx →
      m.remove_drone d =
        (m, { d with context := none, payload := d.payload.reset },
          .error (.valueError .contextNotSet))) ∧
    (∀ (mo : MapOld) (aid : Nat),
      (∀ dr ∈ mo.drones, dr.ident = aid →
        dr.context.coord ≠ mo.landing_zone) →
      mo.remove_atron aid = .ok (mo, none)) := by
  constructor
  · intro m d ctx hctx
    have hdep : d.deployed = true := by simp [Atron.deployed, hctx]
    have hu : d.undeploy =
        ({ d with context := none, payload := d.payload.reset },
          d.payload.get) := by
      unfold Atron.undeploy
      rw [if_pos hdep]
    unfold MapData.remove_drone
    rw [hu]
    rfl
  · intro mo aid h
    exact remove_atron_go_none mo aid mo.drones [] h

/-- Witness for C5 at concrete states: the stranded drone at (2,2) of
mineralMap5 and the map.py state with its drone of identity 7 at (2,2). -/
theorem C5_remove_semantics_witness :
    mineralMap5.remove_drone strandedA =
      (mineralMap5,
        { strandedA with
            context := none
            payload := strandedA.payload.reset },
        .error (.valueError .contextNotSet)) ∧
    mapOld1.remove_atron 7 = .ok (mapOld1, none) :=
  ⟨C5_remove_semantics.1 mineralMap5 strandedA
      ⟨⟨2, 2⟩, .UNKNOWN, .UNKNOWN, .UNKNOWN, .UNKNOWN⟩ rfl,
   C5_remove_semantics.2 mapOld1 7 (by decide)⟩

/-- C5 counterexample: calling remove_drone on a drone deployed at (2,2),
away from the (1,1) landing zone, does not fail with any
not-at-landing-zone error: it undeploys the drone (payload 4 reset to 0)
and raises the context-not-set ValueError instead, so afterwards the
drone is neither deployed nor carrying its payload. -/
theorem C5_counterexample :
    strandedA.context =
      some ⟨⟨2, 2⟩, .UNKNOWN, .UNKNOWN, .UNKNOWN, .UNKNOWN⟩ ∧
    strandedA.payload.value = 4 ∧
    mineralMap5.landing_zone = ⟨1, 1⟩ ∧
    (mineralMap5.remove_drone strandedA).2.1 =
      ⟨⟨40, 40, 40⟩, ⟨0, 0, 10⟩, none, .MINER⟩ ∧
    (mineralMap5.remove_drone strandedA).2.1.deployed = false ∧
    (mineralMap5.remove_drone strandedA).2.2 =
      .error (.valueError .contextNotSet) := by
  exact ⟨rfl, rfl, rfl, rfl, rfl, rfl⟩

/-- Inversion of a successful list index. -/
theorem listIndex_inv {α : Type} {l : List α} {i : Int} {a : α}
    (h : listIndex l i = .ok a) :
    ∃ n, ∃ hn : n < l.length,
      pyIndex l.length i = some n ∧ l.get ⟨n, hn⟩ = a := by
  unfold listIndex at h
  split at h
  next n hp =>
    split at h
    next hn =>
      refine ⟨n, hn, hp, ?_⟩
      injection h
    next hn => exact absurd h (by simp)
  next hp => exact absurd h (by simp)

/-- A resolved index lets the update go through as List.set. -/
theorem listUpdate_of_pyIndex {α : Type} {l : List α} {i : Int} {n : Nat}
    (hp : pyIndex l.length i = some n) (a : α) :
    listUpdate l i a = .ok (l.set n a) := by
  unfold listUpdate
  rw [hp]

/-- Reading back the position just written returns the new element. -/
theorem listIndex_set_self {α : Type} {l : List α} {i : Int} {n : Nat}
    (hp : pyIndex l.length i = some n) (hn : n < l.length) (a : α) :
    listIndex (l.set n a) i = .ok a := by
  have hp' : pyIndex (l.set n a).length i = some n := by
    rw [List.length_set]; exact hp
  unfold listIndex
  simp only [hp']
  rw [dif_pos (show n < (l.set n a).length by rw [List.length_set]; exact hn)]
  congr 1
  rw [List.get_eq_getElem]
  exact List.getElem_set_self _

/-- Writing an icon at a readable coordinate succeeds and only changes
that tile icon there, leaving landing zone, ledger and acid untouched. -/
theorem setIcon_self {m : MapData} {c : Coordinate} {t : TileM}
    (i : Icon) (h : m.getItem c = .ok t) :
    ∃ m', m.setIcon c i = .ok m' ∧
      m'.getItem c = .ok { t with icon := i } ∧
      m'.landing_zone = m.landing_zone ∧
      m'.total_minerals = m.total_minerals ∧
      m'.acid = m.acid := by
  unfold MapData.getItem at h
  cases hrow : listIndex m.all_tiles c.y with
  | error e => rw [hrow] at h; exact absurd h (by simp)
  | ok row =>
    rw [hrow] at h
    replace h : listIndex row c.x = .ok t := h
    obtain ⟨ny, hny, hpy, hgety⟩ := listIndex_inv hrow
    obtain ⟨nx, hnx, hpx, hgetx⟩ := listIndex_inv h
    have hu1 : listUpdate row c.x { t with icon := i } =
        .ok (row.set nx { t with icon := i }) :=
      listUpdate_of_pyIndex hpx _
    have hu2 : listUpdate m.all_tiles c.y (row.set nx { t with icon := i }) =
        .ok (m.all_tiles.set ny (row.set nx { t with icon := i })) :=
      listUpdate_of_pyIndex hpy _
    refine ⟨{ m with all_tiles :=
        m.all_tiles.set ny (row.set nx { t with icon := i }) },
      ?_, ?_, rfl, rfl, rfl⟩
    · unfold MapData.setIcon
      simp only [hrow, h, hu1, hu2]
    · unfold MapData.getItem
      have hry : listIndex
          (m.all_tiles.set ny (row.set nx { t with icon := i })) c.y =
          .ok (row.set nx { t with icon := i }) :=
        listIndex_set_self hpy hny _
      simp only [hry]
      exact listIndex_set_self hpx hnx _

/-- Payload increment: count 1 adds exactly one when a unit of free
capacity remains (or the counter is unbounded). -/
theorem payload_count_one (p : Counter) (h0 : 0 ≤ p.value)
    (hcap : p.max_value = DEFAULT_VALUE ∨ p.value + 1 ≤ p.max_value) :
    (p.count 1).value = p.value + 1 ∧ (p.count 1).start = p.start ∧
    (p.count 1).max_value = p.max_value := by
  refine ⟨?_, counter_set_fields p _⟩
  exact counter_set_exact p (p.get + 1) (by unfold Counter.get; omega) hcap

/-- One mining step: with v units left in the ledger, move_to decrements
the ledger and increments the payload; with more than one unit left the
tile and everything else stay as they were, and with exactly one left
the deposit is deleted and the tile (away from the landing zone and
acid) is cleared to Empty. -/
theorem move_to_mineral_step (m : MapData) (a : Atron) (tgt : Coordinate)
    (t : TileM) (v : Int)
    (ht : m.getItem tgt = .ok t) (hicon : t.icon = .MINERAL)
    (hv : m.total_minerals tgt = some v) :
    (2 ≤ v →
      m.move_to a tgt =
        .ok ({ m with total_minerals := m.total_minerals.setKey tgt (v - 1) },
          { a with payload := a.payload.count 1 })) ∧
    (v = 1 → tgt ≠ m.landing_zone → tgt ∉ m.acid →
      ∃ m', m.move_to a tgt =
          .ok (m', { a with payload := a.payload.count 1 }) ∧
        m'.getItem tgt = .ok { t with icon := .EMPTY } ∧
        m'.total_minerals tgt = none ∧
        m'.landing_zone = m.landing_zone ∧ m'.acid = m.acid ∧
        (∀ c, c ≠ tgt → m'.total_minerals c = m.total_minerals c)) := by
  have hkey : m.total_minerals.getKey tgt = .ok v := by
    unfold Dict.getKey
    rw [hv]
  constructor
  · intro h2
    unfold MapData.move_to
    simp only [ht, hicon, hkey]
    rw [if_neg (show ¬ v - 1 ≤ 0 by omega)]
  · intro h1 hlz hacid
    subst h1
    have ht1 : ({ m with total_minerals := m.total_minerals.setKey tgt 0 } :
        MapData).getItem tgt = .ok t := ht
    obtain ⟨m2, hset, hget2, hlz2, hmin2, hacid2⟩ :=
      setIcon_self .EMPTY ht1
    have hclear : ({ m with total_minerals :=
        m.total_minerals.setKey tgt 0 } : MapData).clear_tile tgt =
        .ok m2 := by
      unfold MapData.clear_tile
      rw [if_neg (show ¬ tgt =
          ({ m with total_minerals := m.total_minerals.setKey tgt 0 } :
            MapData).landing_zone from hlz),
        if_neg (show ¬ tgt ∈
          ({ m with total_minerals := m.total_minerals.setKey tgt 0 } :
            MapData).acid from hacid)]
      exact hset
    refine ⟨{ m2 with total_minerals := m2.total_minerals.delKey tgt },
      ?_, hget2, ?_, hlz2, hacid2, ?_⟩
    · unfold MapData.move_to
      simp only [ht, hicon, hkey]
      rw [if_pos (show (1 : Int) - 1 ≤ 0 by omega),
        show ((1 : Int) - 1) = 0 from by norm_num]
      simp only [hclear]
    · show m2.total_minerals.delKey tgt tgt = none
      unfold Dict.delKey
      rw [if_pos rfl]
    · intro c hc
      show m2.total_minerals.delKey tgt c = m.total_minerals c
      unfold Dict.delKey
      rw [if_neg hc, hmin2]
      show m.total_minerals.setKey tgt 0 c = m.total_minerals c
      unfold Dict.setKey
      rw [if_neg hc]

/-- C1: a mineral deposit holding N units (N at least 1), mined by N
move_to calls from an actor with at least N free payload capacity, ends
with the tile icon cleared to Empty (its pre-mineral terrain: deposits
sit away from the landing zone and acid), the ledger entry deleted, the
payload larger by exactly N, and the actor position (context) and health
unchanged at every step. -/
theorem C1_mining_depletes : ∀ (N : Nat), 1 ≤ N →
    ∀ (m : MapData) (a : Atron) (tgt : Coordinate) (t : TileM),
      m.getItem tgt = .ok t → t.icon = .MINERAL →
      m.total_minerals tgt = some (N : Int) →
      tgt ≠ m.landing_zone → tgt ∉ m.acid →
      0 ≤ a.payload.value →
      (a.payload.max_value = DEFAULT_VALUE ∨
        a.payload.value + N ≤ a.payload.max_value) →
      ((m.move_to_n a tgt N).map (fun p =>
          ((p.1.getItem tgt).map TileM.icon, p.1.total_minerals tgt,
            p.2.payload.value, p.2.context, p.2.health)) =
        .ok (.ok .EMPTY, none, a.payload.value + N, a.context, a.health)) ∧
      (∀ k, k ≤ N → (m.move_to_n a tgt k).map (fun p => p.2.context) =
        .ok a.context) := by
  intro N
  induction N with
  | zero => intro h; exact absurd h (by omega)
  | succ n ih =>
    intro _ m a tgt t ht hicon hv hlz hacid hp0 hcap
    have hcap1 : a.payload.max_value = DEFAULT_VALUE ∨
        a.payload.value + 1 ≤ a.payload.max_value := by
      rcases hcap with h | h
      · exact Or.inl h
      · right; push_cast at h; omega
    have hcount := payload_count_one a.payload hp0 hcap1
    cases n with
    | zero =>
      have hv1 : m.total_minerals tgt = some 1 := by
        rw [hv]; norm_num
      obtain ⟨m', hmove, hget', hmin', hlz', hacid', hrest⟩ :=
        (move_to_mineral_step m a tgt t 1 ht hicon hv1).2 rfl hlz hacid
      have h1 : m.move_to_n a tgt 1 =
          .ok (m', { a with payload := a.payload.count 1 }) := by
        unfold MapData.move_to_n
        simp only [hmove]
        rfl
      constructor
      · rw [h1]
        show Except.ok ((m'.getItem tgt).map TileM.icon,
            m'.total_minerals tgt, (a.payload.count 1).value,
            a.context, a.health) = _
        rw [hget', hmin', hcount.1]
        simp only [Except.map]
        norm_num
      · intro k hk
        interval_cases k
        · rfl
        · rw [h1]; rfl
    | succ j =>
      have hv2 : m.total_minerals tgt = some ((j + 2 : Nat) : Int) := by
        rw [hv]
      have h2 : (2 : Int) ≤ ((j + 2 : Nat) : Int) := by push_cast; omega
      have hmove := (move_to_mineral_step m a tgt t _ ht hicon hv2).1 h2
      have hstep : ∀ k : Nat, m.move_to_n a tgt (k + 1) =
          MapData.move_to_n
            { m with total_minerals :=
                m.total_minerals.setKey tgt (((j + 2 : Nat) : Int) - 1) }
            { a with payload := a.payload.count 1 } tgt k := by
        intro k
        show (match m.move_to a tgt with
          | Except.error e => Except.error e
          | Except.ok (m', a') => m'.move_to_n a' tgt k) = _
        rw [hmove]
      have hv' : ({ m with total_minerals :=
          m.total_minerals.setKey tgt (((j + 2 : Nat) : Int) - 1) } :
            MapData).total_minerals tgt = some ((j + 1 : Nat) : Int) := by
        show m.total_minerals.setKey tgt _ tgt = _
        unfold Dict.setKey
        rw [if_pos rfl]
        congr 1
        push_cast
        omega
      have hcap' : (a.payload.count 1).max_value = DEFAULT_VALUE ∨
          (a.payload.count 1).value + (j + 1 : Nat) ≤
            (a.payload.count 1).max_value := by
        rcases hcap with h | h
        · exact Or.inl (hcount.2.2.trans h)
        · right
          rw [hcount.1, hcount.2.2]
          push_cast at h ⊢
          omega
      have hih := ih (by omega)
        { m with total_minerals :=
            m.total_minerals.setKey tgt (((j + 2 : Nat) : Int) - 1) }
        { a with payload := a.payload.count 1 } tgt t ht hicon hv'
        hlz hacid (by rw [hcount.1]; omega) hcap'
      constructor
      · rw [hstep (j + 1), hih.1]
        show Except.ok (Except.ok Icon.EMPTY, none,
            (a.payload.count 1).value + ((j + 1 : Nat) : Int),
            a.context, a.health) = _
        rw [hcount.1]
        have harith : a.payload.value + 1 + ((j + 1 : Nat) : Int) =
            a.payload.value + ((j + 1 + 1 : Nat) : Int) := by
          push_cast
          omega
        rw [harith]
      · intro k hk
        cases k with
        | zero => rfl
        | succ kk =>
          rw [hstep kk]
          exact hih.2 kk (by omega)

/-- Witness for C1: mining the 2-unit deposit at (3,1) of mineralMap5
twice with the empty-payload miner clears the tile to Empty, deletes the
ledger entry, raises the payload to 2 and never moves the miner. -/
theorem C1_mining_depletes_witness :
    ((mineralMap5.move_to_n minerA ⟨3, 1⟩ 2).map (fun p =>
        ((p.1.getItem ⟨3, 1⟩).map TileM.icon, p.1.total_minerals ⟨3, 1⟩,
          p.2.payload.value, p.2.context, p.2.health)) =
      .ok (.ok .EMPTY, none, minerA.payload.value + (2 : Nat),
        minerA.context, minerA.health)) ∧
    ((mineralMap5.move_to_n minerA ⟨3, 1⟩ 1).map (fun p => p.2.context) =
      .ok minerA.context) :=
  ⟨(C1_mining_depletes 2 (by decide) mineralMap5 minerA ⟨3, 1⟩
      ⟨⟨3, 1⟩, .MINERAL, false⟩ rfl rfl (by decide) (by decide)
      (by decide) (by decide) (by decide)).1,
   (C1_mining_depletes 2 (by decide) mineralMap5 minerA ⟨3, 1⟩
      ⟨⟨3, 1⟩, .MINERAL, false⟩ rfl rfl (by decide) (by decide)
      (by decide) (by decide) (by decide)).2 1 (by decide)⟩

/-- C7 counterexample: on the obstacle-free 5 by 5 box, the search from
(2,3) to (2,1) returns a path of 4 edges while the Manhattan distance is
2, because the queue orders nodes by raw tile weight and coordinate
order, not by cumulative distance, and parent entries are overwritten. -/
theorem C7_counterexample :
    boxMap5.dijkstra ⟨2, 3⟩ ⟨2, 1⟩ =
      .ok [⟨2, 3⟩, ⟨1, 3⟩, ⟨1, 2⟩, ⟨1, 1⟩, ⟨2, 1⟩] ∧
    manhattan ⟨2, 3⟩ ⟨2, 1⟩ = 2 ∧
    ([(⟨2, 3⟩ : Coordinate), ⟨1, 3⟩, ⟨1, 2⟩, ⟨1, 1⟩, ⟨2, 1⟩].length - 1) ≠
      manhattan ⟨2, 3⟩ ⟨2, 1⟩ := by
  exact ⟨rfl, by decide, by decide⟩

/-- A nonnegative resolved python index is the plain index. -/
theorem pyIndex_nonneg {len : Nat} {i : Int} {n : Nat} (h0 : 0 ≤ i)
    (h : pyIndex len i = some n) : n = i.toNat ∧ i < (len : Int) := by
  simp only [pyIndex] at h
  rw [if_neg (show ¬ i < 0 by omega)] at h
  by_cases hb : 0 ≤ i ∧ i < (len : Int)
  · rw [if_pos hb] at h
    injection h with h
    exact ⟨h.symm, hb.2⟩
  · rw [if_neg hb] at h
    exact absurd h (by simp)

/-- getD agrees with get at an in-range index. -/
theorem getD_of_get {α : Type} {l : List α} {n : Nat} (hn : n < l.length)
    (d : α) : l.getD n d = l.get ⟨n, hn⟩ := by
  rw [List.getD_eq_getElem?_getD, List.getElem?_eq_getElem hn]
  rfl

/-- A successful lookup at nonnegative components means true in-bounds
coordinates, and the result is the tile stored at this grid position. -/
theorem getItem_ok_bounds {m : MapData} {c : Coordinate} {t : TileM}
    (hx : 0 ≤ c.x) (hy : 0 ≤ c.y) (h : m.getItem c = .ok t) :
    c.y.toNat < m.heightN ∧ c.x.toNat < (m.rowAt c.y.toNat).length ∧
    t = m.tileAtN c.x.toNat c.y.toNat := by
  unfold MapData.getItem at h
  cases hrow : listIndex m.all_tiles c.y with
  | error e => rw [hrow] at h; exact absurd h (by simp)
  | ok row =>
    rw [hrow] at h
    replace h : listIndex row c.x = .ok t := h
    obtain ⟨ny, hny, hpy, hgety⟩ := listIndex_inv hrow
    obtain ⟨nx, hnx, hpx, hgetx⟩ := listIndex_inv h
    obtain ⟨hny', _⟩ := pyIndex_nonneg hy hpy
    obtain ⟨hnx', _⟩ := pyIndex_nonneg hx hpx
    subst hny'
    have hrowAt : m.rowAt c.y.toNat = row := by
      unfold MapData.rowAt
      rw [getD_of_get hny]
      exact hgety
    subst hnx'
    refine ⟨hny, ?_, ?_⟩
    · rw [hrowAt]; exact hnx
    · unfold MapData.tileAtN
      rw [hrowAt, getD_of_get hnx]
      exact hgetx.symm

/-- Conversely, true in-bounds natural coordinates always resolve. -/
theorem getItem_of_boundsN (m : MapData) (x y : Nat) (hy : y < m.heightN)
    (hx : x < (m.rowAt y).length) :
    m.getItem ⟨(x : Int), (y : Int)⟩ = .ok (m.tileAtN x y) := by
  have h1 : listIndex m.all_tiles (y : Int) = .ok (m.rowAt y) := by
    have h := listIndex_pos (l := m.all_tiles) (i := (y : Int)) (by omega)
      (by exact_mod_cast hy) []
    rw [Int.toNat_natCast] at h
    exact h
  have h2 : listIndex (m.rowAt y) (x : Int) = .ok (m.tileAtN x y) := by
    have h := listIndex_pos (l := m.rowAt y) (i := (x : Int)) (by omega)
      (by exact_mod_cast hx) defaultTileM
    rw [Int.toNat_natCast] at h
    exact h
  unfold MapData.getItem
  simp only [h1]
  exact h2

/-- Cardinal adjacency is symmetric. -/
theorem cardinals_symm {c d : Coordinate} :
    c ∈ d.cardinals ↔ d ∈ c.cardinals := by
  obtain ⟨cx, cy⟩ := c
  obtain ⟨dx, dy⟩ := d
  simp only [Coordinate.cardinals, Coordinate.translate_one, List.mem_cons,
    List.not_mem_nil, or_false, Coordinate.mk.injEq]
  omega

/-- An empty pop means an empty queue. -/
theorem popMin_none {l : List (Int × Coordinate)} (h : popMin l = none) :
    l = [] := by
  cases l with
  | nil => rfl
  | cons x xs =>
    exfalso
    unfold popMin at h
    cases hp : popMin xs with
    | none => rw [hp] at h; exact Option.noConfusion h
    | some p =>
      obtain ⟨mn, rest⟩ := p
      rw [hp] at h
      replace h : (if pqLe x mn = true then some (x, xs)
          else some (mn, x :: rest)) = none := h
      by_cases hle : pqLe x mn = true
      · rw [if_pos hle] at h; exact Option.noConfusion h
      · rw [if_neg hle] at h; exact Option.noConfusion h

/-- A successful pop returns a queue member and a remainder that is one
shorter and consists of queue members. -/
theorem popMin_spec {l : List (Int × Coordinate)} {e : Int × Coordinate}
    {rest : List (Int × Coordinate)} (h : popMin l = some (e, rest)) :
    e ∈ l ∧ rest.length + 1 = l.length ∧ ∀ y ∈ rest, y ∈ l := by
  induction l generalizing e rest with
  | nil => exact Option.noConfusion h
  | cons x xs ih =>
    unfold popMin at h
    cases hp : popMin xs with
    | none =>
      rw [hp] at h
      simp only [Option.some.injEq, Prod.mk.injEq] at h
      obtain ⟨he, hrest⟩ := h
      subst he
      subst hrest
      have hnil : xs = [] := popMin_none hp
      subst hnil
      exact ⟨List.mem_singleton_self x, rfl, by intro y hy; cases hy⟩
    | some p =>
      obtain ⟨mn, rest'⟩ := p
      rw [hp] at h
      replace h : (if pqLe x mn = true then some (x, xs)
          else some (mn, x :: rest')) = some (e, rest) := h
      obtain ⟨hmn, hlen, hsub⟩ := ih hp
      by_cases hle : pqLe x mn = true
      · rw [if_pos hle] at h
        simp only [Option.some.injEq, Prod.mk.injEq] at h
        obtain ⟨he, hrest⟩ := h
        subst he
        subst hrest
        exact ⟨List.mem_cons_self x xs, rfl,
          fun y hy => List.mem_cons_of_mem x hy⟩
      · rw [if_neg hle] at h
        simp only [Option.some.injEq, Prod.mk.injEq] at h
        obtain ⟨he, hrest⟩ := h
        subst he
        subst hrest
        refine ⟨List.mem_cons_of_mem x hmn, by simp [← hlen], ?_⟩
        intro y hy
        rcases List.mem_cons.mp hy with hy | hy
        · exact hy ▸ List.mem_cons_self x xs
        · exact List.mem_cons_of_mem x (hsub y hy)

/-- Counting with a stronger predicate counts no more. -/
theorem countP_le_of_imp {l : List Coordinate} {p q : Coordinate → Bool}
    (h : ∀ z, p z = true → q z = true) : l.countP p ≤ l.countP q := by
  induction l with
  | nil => simp
  | cons a tl ih =>
    rw [List.countP_cons, List.countP_cons]
    by_cases hp : p a = true
    · rw [hp, h a hp]; omega
    · have : p a = false := by revert hp; cases p a <;> simp
      rw [this]
      cases q a <;> simp <;> omega

/-- Adding a fresh member of the ground list to the visited set strictly
shrinks the unvisited count. -/
theorem countP_remove_lt {l : List Coordinate} {c : Coordinate}
    (visited : List Coordinate) (hcl : c ∈ l) (hcv : c ∉ visited) :
    l.countP (fun z => decide (z ∉ c :: visited)) <
      l.countP (fun z => decide (z ∉ visited)) := by
  induction l with
  | nil => cases hcl
  | cons a tl ih =>
    rw [List.countP_cons, List.countP_cons]
    have hmono : tl.countP (fun z => decide (z ∉ c :: visited)) ≤
        tl.countP (fun z => decide (z ∉ visited)) := by
      refine countP_le_of_imp ?_
      intro z hz
      simp only [decide_eq_true_eq, List.mem_cons] at hz ⊢
      exact fun hv => hz (Or.inr hv)
    by_cases hac : a = c
    · subst hac
      have h1 : (decide (a ∉ a :: visited)) = false := by simp
      have h2 : (decide (a ∉ visited)) = true := by
        simp only [decide_eq_true_eq]
        exact hcv
      rw [h1, h2]
      simp only [Bool.false_eq_true, if_false, if_true]
      omega
    · rcases List.mem_cons.mp hcl with h | h
      · exact absurd h.symm hac
      · have hstrict := ih h
        have hle : (if (decide (a ∉ c :: visited)) = true then 1 else 0) ≤
            (if (decide (a ∉ visited)) = true then 1 else 0) := by
          split_ifs with hA hB
          · omega
          · exfalso
            simp only [decide_eq_true_eq] at hA hB
            exact hA (List.mem_cons_of_mem c (not_not.mp hB))
          · omega
          · omega
        omega

/-- Row-wise sum of getD lengths over the range equals the total size. -/
theorem grid_length_sum : ∀ (l : List (List TileM)),
    ((List.range l.length).map fun y => (l.getD y []).length).sum =
      (l.map List.length).sum := by
  intro l
  induction l with
  | nil => simp
  | cons a tl ih =>
    rw [List.length_cons, List.range_succ_eq_map, List.map_cons,
      List.map_map]
    simp only [Function.comp_def, List.getD_cons_zero, List.getD_cons_succ]
    rw [List.sum_cons, List.map_cons, List.sum_cons, ih]

/-- The coordinate list enumerates exactly gridCount cells. -/
theorem gridCoordsList_length (m : MapData) :
    m.gridCoordsList.length = m.gridCount := by
  unfold MapData.gridCoordsList MapData.gridCount MapData.heightN
  rw [List.length_flatMap]
  simp only [Function.comp_def, List.length_map, List.length_range]
  exact grid_length_sum m.all_tiles

/-- In-bounds coordinates with nonnegative components are enumerated. -/
theorem mem_gridCoordsList {m : MapData} {c : Coordinate}
    (hx : 0 ≤ c.x) (hy : 0 ≤ c.y) (hyb : c.y.toNat < m.heightN)
    (hxb : c.x.toNat < (m.rowAt c.y.toNat).length) :
    c ∈ m.gridCoordsList := by
  unfold MapData.gridCoordsList
  rw [List.mem_flatMap]
  refine ⟨c.y.toNat, List.mem_range.mpr hyb, ?_⟩
  rw [List.mem_map]
  refine ⟨c.x.toNat, List.mem_range.mpr hxb, ?_⟩
  obtain ⟨cx, cy⟩ := c
  simp only [Coordinate.mk.injEq]
  constructor
  · exact Int.toNat_of_nonneg hx
  · exact Int.toNat_of_nonneg hy

/-- Unpacking a pathable in-map coordinate. -/
theorem pim_elim {m : MapData} {c : Coordinate} (h : m.pim c) :
    ∃ t, 0 ≤ c.x ∧ 0 ≤ c.y ∧ m.getItem c = .ok t ∧
      isPathable t.icon = true := by
  obtain ⟨hx, hy, hp⟩ := h
  unfold MapData.pathableAt at hp
  cases hg : m.getItem c with
  | error e =>
    rw [hg] at hp
    exact absurd hp (by simp)
  | ok t =>
    rw [hg] at hp
    exact ⟨t, hx, hy, rfl, hp⟩

/-- On a wall-bordered rectangular grid, a pathable coordinate is
interior. -/
theorem pim_interior {m : MapData} {w : Nat} {c : Coordinate}
    (hrect : m.rectOk w) (hborder : m.borderOk w m.heightN) (h : m.pim c) :
    1 ≤ c.x ∧ c.x ≤ (w : Int) - 2 ∧ 1 ≤ c.y ∧
      c.y ≤ (m.heightN : Int) - 2 := by
  obtain ⟨t, hx, hy, hget, hpath⟩ := pim_elim h
  obtain ⟨hyb, hxb, ht⟩ := getItem_ok_bounds hx hy hget
  have hw : (m.rowAt c.y.toNat).length = w := hrect c.y.toNat hyb
  have hxw : c.x.toNat < w := hw ▸ hxb
  have hwall : ¬ (c.x.toNat = 0 ∨ c.x.toNat = w - 1 ∨ c.y.toNat = 0 ∨
      c.y.toNat = m.heightN - 1) := by
    intro hedge
    have hicon := hborder c.y.toNat hyb c.x.toNat hxb hedge
    rw [← ht] at hicon
    rw [hicon] at hpath
    exact absurd hpath (by decide)
  push_neg at hwall
  omega

/-- A pathable in-map coordinate is never cardinally adjacent to a
target whose in-map neighbors are all walls. -/
theorem pim_not_near {m : MapData} {B c : Coordinate}
    (hB : B.cardinals.all m.wallOrOut = true) (hpim : m.pim c) :
    c ∉ B.cardinals := by
  intro hmem
  obtain ⟨t, hx, hy, hget, hpath⟩ := pim_elim hpim
  have hwo := List.all_eq_true.mp hB c hmem
  unfold MapData.wallOrOut at hwo
  rw [if_neg (show ¬ (c.x < 0 ∨ c.y < 0) by omega)] at hwo
  rw [hget] at hwo
  replace hwo : (decide (t.icon = Icon.WALL)) = true := hwo
  simp only [decide_eq_true_eq] at hwo
  rw [hwo] at hpath
  exact absurd hpath (by decide)

/-- On a rectangular grid, every cardinal neighbor of an interior
coordinate is in true bounds and resolves. -/
theorem interior_neighbor {m : MapData} {w : Nat} (hrect : m.rectOk w)
    {node d : Coordinate} (hmem : d ∈ node.cardinals)
    (h1 : 1 ≤ node.x) (h2 : node.x ≤ (w : Int) - 2)
    (h3 : 1 ≤ node.y) (h4 : node.y ≤ (m.heightN : Int) - 2) :
    0 ≤ d.x ∧ 0 ≤ d.y ∧ d.y.toNat < m.heightN ∧
      d.x.toNat < (m.rowAt d.y.toNat).length ∧
      m.getItem d = .ok (m.tileAtN d.x.toNat d.y.toNat) := by
  obtain ⟨dx, dy⟩ := d
  obtain ⟨nx, ny⟩ := node
  simp only [Coordinate.cardinals, Coordinate.translate_one, List.mem_cons,
    List.not_mem_nil, or_false, Coordinate.mk.injEq] at hmem
  simp only at h1 h2 h3 h4
  have hdx : (0 : Int) ≤ dx := by omega
  have hdy : (0 : Int) ≤ dy := by omega
  have hyb : dy.toNat < m.heightN := by omega
  have hxb : dx.toNat < (m.rowAt dy.toNat).length := by
    rw [hrect dy.toNat hyb]
    omega
  refine ⟨hdx, hdy, hyb, hxb, ?_⟩
  have hget := getItem_of_boundsN m dx.toNat dy.toNat hyb hxb
  rw [Int.toNat_of_nonneg hdx, Int.toNat_of_nonneg hdy] at hget
  exact hget

/-- The neighbor loop of the search: it never raises when the expanded
node is pathable, it grows the queue by at most the number of neighbor
candidates, and every new queue entry is a pathable in-map coordinate
distinct from the sealed target. -/
theorem add_to_path_spec {m : MapData} {w : Nat} {B : Coordinate}
    (hrect : m.rectOk w) (hborder : m.borderOk w m.heightN)
    (hcoords : m.coordsOk) (hB : B.cardinals.all m.wallOrOut = true) :
    ∀ (ncs : List Coordinate) (node : Coordinate)
      (parents : List (Coordinate × Coordinate))
      (pq : List (Int × Coordinate)),
      (∀ nc ∈ ncs, nc ∈ node.cardinals) → m.pim node →
      ∃ parents' pq',
        m.add_to_path node ncs parents pq = .ok (parents', pq') ∧
        pq'.length ≤ pq.length + ncs.length ∧
        (∀ e ∈ pq', e ∈ pq ∨ (m.pim e.2 ∧ e.2 ≠ B)) := by
  intro ncs
  induction ncs with
  | nil =>
    intro node parents pq hsub hpim
    exact ⟨parents, pq, rfl, by omega, fun e he => Or.inl he⟩
  | cons nc rest ih =>
    intro node parents pq hsub hpim
    obtain ⟨hi1, hi2, hi3, hi4⟩ := pim_interior hrect hborder hpim
    obtain ⟨hdx, hdy, hyb, hxb, hget⟩ :=
      interior_neighbor hrect (hsub nc (List.mem_cons_self _ _))
        hi1 hi2 hi3 hi4
    have hgetsome : m.get nc none =
        .ok (some (m.tileAtN nc.x.toNat nc.y.toNat)) := by
      unfold MapData.get
      rw [hget]
    have hredstep : m.add_to_path node (nc :: rest) parents pq =
        (match m.get nc none with
          | Except.error e => Except.error e
          | Except.ok none => m.add_to_path node rest parents pq
          | Except.ok (some t) =>
            match node_weight? t.icon with
            | none => m.add_to_path node rest parents pq
            | some w' => m.add_to_path node rest
                ((t.coordinate, node) :: parents)
                (pq ++ [(w', t.coordinate)])) := rfl
    cases hw : node_weight? (m.tileAtN nc.x.toNat nc.y.toNat).icon with
    | none =>
      obtain ⟨parents', pq', hok, hlen, hmem⟩ := ih node parents pq
        (fun c hc => hsub c (List.mem_cons_of_mem _ hc)) hpim
      refine ⟨parents', pq', ?_, by simp; omega, hmem⟩
      rw [hredstep]
      simp only [hgetsome, hw]
      exact hok
    | some wv =>
      have hcoord : (m.tileAtN nc.x.toNat nc.y.toNat).coordinate = nc := by
        rw [hcoords nc.y.toNat hyb nc.x.toNat hxb]
        obtain ⟨ncx, ncy⟩ := nc
        simp only [Coordinate.mk.injEq]
        exact ⟨Int.toNat_of_nonneg hdx, Int.toNat_of_nonneg hdy⟩
      have hpimnc : m.pim nc := by
        refine ⟨hdx, hdy, ?_⟩
        unfold MapData.pathableAt
        rw [hget]
        show (node_weight? (m.tileAtN nc.x.toNat nc.y.toNat).icon).isSome = true
        rw [hw]
        rfl
      have hncB : nc ≠ B := by
        intro hEq
        apply pim_not_near hB hpim
        rw [← hEq]
        exact cardinals_symm.mp (hsub nc (List.mem_cons_self _ _))
      obtain ⟨parents', pq', hok, hlen, hmem⟩ := ih node
        (((m.tileAtN nc.x.toNat nc.y.toNat).coordinate, node) :: parents)
        (pq ++ [(wv, (m.tileAtN nc.x.toNat nc.y.toNat).coordinate)])
        (fun c hc => hsub c (List.mem_cons_of_mem _ hc)) hpim
      refine ⟨parents', pq', ?_, ?_, ?_⟩
      · rw [hredstep]
        simp only [hgetsome, hw]
        exact hok
      · rw [List.length_append] at hlen
        simp only [List.length_singleton] at hlen
        simp only [List.length_cons]
        omega
      · intro e he
        rcases hmem e he with he' | he'
        · rcases List.mem_append.mp he' with h | h
          · exact Or.inl h
          · right
            have heq : e = (wv, (m.tileAtN nc.x.toNat nc.y.toNat).coordinate) :=
              List.mem_singleton.mp h
            rw [heq]
            show m.pim (m.tileAtN nc.x.toNat nc.y.toNat).coordinate ∧ _
            rw [hcoord]
            exact ⟨hpimnc, hncB⟩
        · exact Or.inr he'

/-- The search loop on a map whose target is sealed off by walls: when
every queue entry is a pathable in-map coordinate other than the target,
the loop drains the queue within the fuel bound and reports that no path
was found. -/
theorem dloop_walled (m : MapData) (w : Nat) (B : Coordinate)
    (hrect : m.rectOk w) (hborder : m.borderOk w m.heightN)
    (hcoords : m.coordsOk) (hB : B.cardinals.all m.wallOrOut = true) :
    ∀ (fuel : Nat) (pq : List (Int × Coordinate))
      (visited : List Coordinate)
      (parents : List (Coordinate × Coordinate)),
      (∀ e ∈ pq, m.pim e.2 ∧ e.2 ≠ B) →
      pq.length + 5 * m.unvisitedCount visited < fuel →
      m.dloop B fuel pq visited parents = .ok none := by
  intro fuel
  induction fuel with
  | zero =>
    intro pq visited parents hinv hm
    exact absurd hm (by omega)
  | succ fuel ih =>
    intro pq visited parents hinv hm
    have hred : m.dloop B (fuel + 1) pq visited parents =
        (match popMin pq with
          | none => Except.ok none
          | some (e, pq') =>
            if e.2 ∈ visited then m.dloop B fuel pq' visited parents
            else if e.2 = B then Except.ok (some parents)
            else if B ∈ e.2.cardinals then
              Except.ok (some ((B, e.2) :: parents))
            else
              match m.add_to_path e.2
                  (e.2.cardinals.filter (fun c => c ∉ (e.2 :: visited)))
                  parents pq' with
              | Except.error e' => Except.error e'
              | Except.ok (parents', pq'') =>
                m.dloop B fuel pq'' (e.2 :: visited) parents') := rfl
    cases hpop : popMin pq with
    | none => rw [hred, hpop]
    | some pr =>
      obtain ⟨e, pq'⟩ := pr
      obtain ⟨hmem, hlen, hsub⟩ := popMin_spec hpop
      obtain ⟨hpime, hneB⟩ := hinv e hmem
      rw [hred, hpop]
      show (if e.2 ∈ visited then m.dloop B fuel pq' visited parents
        else if e.2 = B then Except.ok (some parents)
        else if B ∈ e.2.cardinals then Except.ok (some ((B, e.2) :: parents))
        else
          match m.add_to_path e.2
              (e.2.cardinals.filter (fun c => c ∉ (e.2 :: visited)))
              parents pq' with
          | Except.error e' => Except.error e'
          | Except.ok (parents', pq'') =>
            m.dloop B fuel pq'' (e.2 :: visited) parents') = Except.ok none
      by_cases hv : e.2 ∈ visited
      · rw [if_pos hv]
        apply ih pq' visited parents (fun x hx => hinv x (hsub x hx))
        omega
      · rw [if_neg hv, if_neg (show ¬ e.2 = B from hneB),
          if_neg (show ¬ B ∈ e.2.cardinals from
            fun hBc => pim_not_near hB hpime (cardinals_symm.mp hBc))]
        obtain ⟨parents', pq'', hok, hlen2, hmemspec⟩ :=
          add_to_path_spec hrect hborder hcoords hB
            (e.2.cardinals.filter (fun c => c ∉ (e.2 :: visited)))
            e.2 parents pq'
            (fun c hc => (List.mem_filter.mp hc).1) hpime
        rw [hok]
        show m.dloop B fuel pq'' (e.2 :: visited) parents' = Except.ok none
        apply ih pq'' (e.2 :: visited) parents'
        · intro x hx
          rcases hmemspec x hx with h | h
          · exact hinv x (hsub x h)
          · exact h
        · have hfl : (e.2.cardinals.filter
              (fun c => c ∉ (e.2 :: visited))).length ≤ 4 := by
            calc (e.2.cardinals.filter
                (fun c => c ∉ (e.2 :: visited))).length
                ≤ e.2.cardinals.length := List.length_filter_le _ _
              _ = 4 := rfl
          have hcount : m.unvisitedCount (e.2 :: visited) <
              m.unvisitedCount visited := by
            unfold MapData.unvisitedCount
            apply countP_remove_lt visited ?_ hv
            obtain ⟨t, hx0, hy0, hget0, _⟩ := pim_elim hpime
            obtain ⟨hyb, hxb, _⟩ := getItem_ok_bounds hx0 hy0 hget0
            exact mem_gridCoordsList hx0 hy0 hyb hxb
          omega

/-- C7 amended, positive part: for a target B sealed off by walls (every
in-map cardinal neighbor of B is a Wall) on a rectangular wall-bordered
grid whose tiles are labelled with their own coordinates, a search from
any pathable in-map start A distinct from B returns the empty path. -/
theorem C7_walled_off_empty (m : MapData) (w : Nat) (A B : Coordinate)
    (hrect : m.rectOk w) (hborder : m.borderOk w m.heightN)
    (hcoords : m.coordsOk) (hA : m.pim A)
    (hB : B.cardinals.all m.wallOrOut = true) (hAB : A ≠ B) :
    m.dijkstra A B = .ok [] := by
  unfold MapData.dijkstra
  have hd := dloop_walled m w B hrect hborder hcoords hB
    (5 * m.gridCount + 12) [(0, A)] [] []
    (by
      intro e he
      rw [List.mem_singleton] at he
      subst he
      exact ⟨hA, hAB⟩)
    (by
      have h1 : m.unvisitedCount [] ≤ m.gridCoordsList.length :=
        List.countP_le_length _
      rw [gridCoordsList_length] at h1
      simp only [List.length_singleton]
      omega)
  rw [hd]

/-- Witness for the amended C7 on a concrete 5 by 5 map whose center
cell (2,2) is enclosed by walls: the search from (1,1) returns []. -/
theorem C7_walled_off_empty_witness :
    sealedMap5.dijkstra ⟨1, 1⟩ ⟨2, 2⟩ = .ok [] :=
  C7_walled_off_empty sealedMap5 5 ⟨1, 1⟩ ⟨2, 2⟩
    (by unfold MapData.rectOk; decide)
    (by unfold MapData.borderOk; decide)
    (by unfold MapData.coordsOk; decide)
    (by unfold MapData.pim; decide)
    (by decide) (by decide)

end DroneDrillers
